import Mathlib

/-!
# Verification of the brm-server content-addressed artifact store

Shallow embedding of the storage core of the brm-server repository
(`SimpleFileStorage`, the hash-computing decorator, and the private OCI
registry service) together with proofs settling the frozen claims about
the natural-language specification.

Modelling conventions:
* Byte sequences are `List Nat`; lengths, offsets and sizes are `Int`
  (Go `int64`; no arithmetic here can overflow 64 bits).
* The filesystem under the storage base directory is a `Store`: four
  association lists keyed by hash, for live blobs, live meta files, and
  their `.trash/` counterparts.  The Go code addresses files through the
  sharded path `D/H[0:2]/H[2:]`, which is injective in the hash; the
  model keys directly by hash.
* Go's `io.Reader` arguments are `Option (List Nat)`: `some bytes` is a
  reader that yields `bytes`, `none` is a nil reader interface.  Calling
  `Read` on a nil reader is a runtime panic in Go
  (`io.Copy(f, nil)` dereferences a nil interface); the model surfaces
  this as the dedicated `StorageErr.nilReaderPanic` outcome.
* `Create` additionally returns the byte sequence it actually consumed
  from the reader, because the callers tee the reader into a SHA-256
  hasher and the hash of the *consumed* bytes is what they compare
  (`SimpleFileStorage.Create` reads nothing at all on its
  artifact-exists branch).
* SHA-256 itself is kept abstract: functions that hash take a
  `hashHex : List Nat → String` parameter standing for
  `hex(sha256(·))`.  No claim depends on properties of SHA-256 beyond
  equality and inequality of digest strings.
* File mtimes matter (`createdAt` defaults to mtime), so each stored
  blob carries the mtime it was written with, and the effectful
  operations take the current clock `now : Int`.
-/

namespace Brm

/-- A byte sequence (contents of a blob or of a request body). -/
abbrev Bytes := List Nat

/-- `models.ArtifactReference`: a named usage pointer `(name, repo, referencedTimestamp)`. -/
structure ArtifactReference where
  name : String
  repo : String
  referencedTimestamp : Int
deriving DecidableEq, Repr

/-- `models.ArtifactMeta`: per-blob metadata `{hash, length, createdTimestamp, references}`. -/
structure ArtifactMeta where
  hash : String
  length : Int
  createdTimestamp : Int
  references : List ArtifactReference
deriving DecidableEq, Repr

/-- A stored blob: its bytes plus the file mtime recorded when it was written. -/
structure Blob where
  bytes : Bytes
  mtime : Int
deriving DecidableEq, Repr

/-- Association-list lookup, keyed by hash (path lookup on the filesystem). -/
def alookup {α : Type} (k : String) : List (String × α) → Option α
  | [] => none
  | (k', v) :: t => if k' = k then some v else alookup k t

/-- Association-list insert/overwrite (create-or-truncate of the file at a path). -/
def ainsert {α : Type} (k : String) (v : α) : List (String × α) → List (String × α)
  | [] => [(k, v)]
  | (k', v') :: t => if k' = k then (k, v) :: t else (k', v') :: ainsert k v t

/-- Association-list removal (the file at a path disappearing, e.g. by rename). -/
def aerase {α : Type} (k : String) : List (String × α) → List (String × α)
  | [] => []
  | (k', v') :: t => if k' = k then aerase k t else (k', v') :: aerase k t

/-- The filesystem state under one storage base directory: live blobs at
`D/H[0:2]/H[2:]`, live meta files at `D/H[0:2]/H[2:].meta.json`, and the
`.trash/` copies of both, all keyed by hash. -/
structure Store where
  blobs : List (String × Blob)
  metas : List (String × ArtifactMeta)
  trashBlobs : List (String × Blob)
  trashMetas : List (String × ArtifactMeta)
deriving DecidableEq, Repr

/-- A freshly created base directory: no artifacts at all. -/
def emptyStore : Store := ⟨[], [], [], []⟩

/-- Errors surfaced by the storage layer (`SimpleFileStorage`).
`nilReaderPanic` is not a Go error value: it marks the runtime panic of
`io.Copy` on a nil reader interface. -/
inductive StorageErr where
  | notFound (hash : String)
  | hashConflict (hash : String) (existingLength providedLength : Int)
  | referenceNotFound (name repo hash : String)
  | moveSourceMissing (srcHash : String)
  | moveFailed (msg : String)
  | nilReaderPanic
deriving DecidableEq, Repr

/-- The joined dedup key `ref.Name + ":" + ref.Repo` used by `mergeReferences`. -/
def refKey (r : ArtifactReference) : String := r.name ++ ":" ++ r.repo

/-- One step of `mergeReferences`' accumulation loop.  The Go code keeps a
`"name:repo" → index` map into `result`; since `result` starts empty and a
key is only recorded when its entry is appended, `result` always holds at
most one entry per key, so updating the entry at the recorded index is the
same as updating every key-matching entry. -/
def addRef (result : List ArtifactReference) (r : ArtifactReference) : List ArtifactReference :=
  if result.any (fun e => refKey e = refKey r) then
    result.map (fun e =>
      if refKey e = refKey r ∧ r.referencedTimestamp > e.referencedTimestamp then
        { e with referencedTimestamp := r.referencedTimestamp }
      else e)
  else result ++ [r]

/-- `mergeReferences` (simple_file_storage): merge `new` into `existing`,
deduplicating by the `name + ":" + repo` key and keeping the latest
timestamp per key.  Both input lists pass through the same loop starting
from an empty `result`. -/
def mergeReferences (existing «new» : List ArtifactReference) : List ArtifactReference :=
  (existing ++ «new»).foldl addRef []

/-- `SimpleFileStorage.moveToTrash`: rename blob then meta into the
`.trash/` layout; either rename is skipped without error if its source
file does not exist. -/
def Store.moveToTrash (s : Store) (hash : String) : Store :=
  let s₁ :=
    match alookup hash s.blobs with
    | some b =>
      { s with blobs := aerase hash s.blobs, trashBlobs := ainsert hash b s.trashBlobs }
    | none => s
  match alookup hash s₁.metas with
  | some m =>
    { s₁ with metas := aerase hash s₁.metas, trashMetas := ainsert hash m s₁.trashMetas }
  | none => s₁

/-- `SimpleFileStorage.GetMeta`: read the meta JSON file; `none` is the
`os.IsNotExist` failure. -/
def Store.getMeta (s : Store) (hash : String) : Option ArtifactMeta :=
  alookup hash s.metas

/-- `SimpleFileStorage.UpdateMeta`: overwrite the meta JSON file at `meta.hash`. -/
def Store.updateMeta (s : Store) (meta : ArtifactMeta) : Store :=
  { s with metas := ainsert meta.hash meta s.metas }

/-- `SimpleFileStorage.Create`.  Returns the result, the new filesystem
state, and the bytes consumed from the reader (all of them on the fresh
path, none on the artifact-exists path — the reader is never touched
there).  On the fresh path `os.Create` makes an empty blob file before
`io.Copy` runs, so a nil reader leaves that empty file behind when the
copy panics. -/
def Store.create (s : Store) (hash : String) (r : Option Bytes) (size : Int)
    (meta : Option ArtifactMeta) (now : Int) :
    Except StorageErr ArtifactMeta × Store × Bytes :=
  match alookup hash s.blobs with
  | some blob =>
    -- Artifact exists: read existing metadata, validate length, merge references
    let existingMeta : ArtifactMeta :=
      match alookup hash s.metas with
      | some m => m
      | none =>
        -- meta file absent: synthesize a basic one from the blob file's stats
        { hash := hash, length := (blob.bytes.length : Int),
          createdTimestamp := blob.mtime, references := [] }
    if size ≠ -1 ∧ size ≠ existingMeta.length then
      (.error (.hashConflict hash existingMeta.length size), s, [])
    else
      let merged : ArtifactMeta :=
        match meta with
        | some m =>
          if m.references ≠ [] then
            { existingMeta with references := mergeReferences existingMeta.references m.references }
          else existingMeta
        | none => existingMeta
      (.ok merged, { s with metas := ainsert hash merged s.metas }, [])
  | none =>
    -- Artifact doesn't exist: create blob file, stream data, write metadata
    match r with
    | none =>
      -- io.Copy(f, nil) panics after os.Create left an empty blob file
      (.error .nilReaderPanic, { s with blobs := ainsert hash ⟨[], now⟩ s.blobs }, [])
    | some d =>
      let fileSize : Int := d.length
      let finalMeta : ArtifactMeta :=
        match meta with
        | some m =>
          { hash := hash, length := fileSize,
            createdTimestamp := if m.createdTimestamp = 0 then now else m.createdTimestamp,
            references := m.references }
        | none =>
          { hash := hash, length := fileSize, createdTimestamp := now, references := [] }
      (.ok finalMeta,
        { s with blobs := ainsert hash ⟨d, now⟩ s.blobs,
                 metas := ainsert hash finalMeta s.metas },
        d)

/-- `SimpleFileStorage.Read`: open the blob, clamp a negative offset to 0,
recompute the length for `-1` or past-EOF requests, and return the bytes
the `io.SectionReader` yields together with the actual range. -/
def Store.read (s : Store) (hash : String) (offset length : Int) :
    Except StorageErr (Bytes × Int × Int) :=
  match alookup hash s.blobs with
  | none => .error (.notFound hash)
  | some blob =>
    let fileSize : Int := blob.bytes.length
    let off := if offset < 0 then 0 else offset
    let len₀ := if length = -1 ∨ off + length > fileSize then fileSize - off else length
    let len := if len₀ < 0 then 0 else len₀
    .ok ((blob.bytes.drop off.toNat).take len.toNat, off, len)

/-- `SimpleFileStorage.Delete`: remove every reference matching
`(ref.name, ref.repo)`; fail if none matched; trash the artifact when no
references remain, otherwise rewrite the meta file. -/
def Store.delete (s : Store) (hash : String) (ref : ArtifactReference) :
    Except StorageErr (Option ArtifactMeta) × Store :=
  match alookup hash s.metas with
  | none =>
    match alookup hash s.blobs with
    | none => (.error (.notFound hash), s)
    | some _ =>
      -- blob without metadata: just move the artifact to trash
      (.ok none, s.moveToTrash hash)
  | some existingMeta =>
    let found := existingMeta.references.any
      (fun e => e.name = ref.name ∧ e.repo = ref.repo)
    let newReferences := existingMeta.references.filter
      (fun e => ¬(e.name = ref.name ∧ e.repo = ref.repo))
    if ¬found then
      (.error (.referenceNotFound ref.name ref.repo hash), s)
    else if newReferences = [] then
      (.ok none, s.moveToTrash hash)
    else
      let updated := { existingMeta with references := newReferences }
      (.ok (some updated), { s with metas := ainsert hash updated s.metas })

/-- `SimpleFileStorage.Move`: rename blob (fails if the source blob is
absent; an existing destination is silently overwritten by `os.Rename`)
then rename the meta file if it exists. -/
def Store.move (s : Store) (srcHash destHash : String) :
    Except StorageErr Unit × Store :=
  match alookup srcHash s.blobs with
  | none => (.error (.moveSourceMissing srcHash), s)
  | some b =>
    let s₁ := { s with blobs := ainsert destHash b (aerase srcHash s.blobs) }
    match alookup srcHash s₁.metas with
    | some m =>
      (.ok (), { s₁ with metas := ainsert destHash m (aerase srcHash s₁.metas) })
    | none => (.ok (), s₁)

/-! ## HashComputingArtifactStorage

The decorator that accepts unresolved hashes, streams to a temporary key
while hashing, and promotes the temp artifact to its computed hash.  The
wrapped storage is the `Store` model above (the production stack wraps
`SimpleFileStorage` in a locking decorator that forwards every operation
unchanged, and the repository's own service tests back it directly with
`SimpleFileStorage`).  `hashHex` stands for `hex(sha256(·))` and `uuid`
for the freshly generated UUIDv4 of `generateTempHash`. -/

/-- `HashComputingArtifactStorage.isUnknownHash`: empty, shorter than 3
characters, or case-insensitively equal to "UNKNOWN". -/
def isUnknownHash (hash : String) : Bool :=
  hash.length < 3 || hash.toUpper = "UNKNOWN"

/-- `HashComputingArtifactStorage.cleanupTempHash`: if the temp artifact
has no references, add the sentinel `("temp-cleanup", "temp-cleanup")`
reference, then delete that reference so that the reference-counted
Delete path disposes of the artifact. -/
def cleanupTempHash (s : Store) (tempHash : String) (now : Int) :
    Except StorageErr Unit × Store :=
  match s.getMeta tempHash with
  | none => (.ok (), s)  -- already doesn't exist - nothing to clean up
  | some tempMeta =>
    let (s₁ : Store) :=
      if tempMeta.references = [] then
        s.updateMeta { tempMeta with
          references := [⟨"temp-cleanup", "temp-cleanup", now⟩] }
      else s
    match s₁.delete tempHash ⟨"temp-cleanup", "temp-cleanup", 0⟩ with
    | (.error e, s₂) => (.error e, s₂)
    | (.ok _, s₂) => (.ok (), s₂)

/-- `HashComputingArtifactStorage.handleExistingHash`: the computed hash
already exists; clean up the temp artifact (ignoring cleanup failures)
and merge the caller's references through a zero-byte Create against the
existing artifact (`bytes.NewReader(nil)` is an empty, non-nil reader). -/
def handleExistingHash (s : Store) (computedHash tempHash : String)
    (tempMeta meta : Option ArtifactMeta) (now : Int) :
    Except StorageErr ArtifactMeta × Store :=
  let s₁ := (cleanupTempHash s tempHash now).2  -- cleanup error logged, not propagated
  match s₁.getMeta computedHash with
  | none => (.error (.notFound computedHash), s₁)
  | some existingMeta =>
    match meta with
    | some m =>
      if m.references ≠ [] then
        let mergeSize := match tempMeta with
          | some tm => tm.length
          | none => existingMeta.length
        let (res, s₂, _) := s₁.create computedHash (some []) mergeSize meta now
        (res, s₂)
      else (.ok existingMeta, s₁)
    | none => (.ok existingMeta, s₁)

/-- `HashComputingArtifactStorage.moveToFinalHash`: move temp → computed;
if the move fails because the computed hash now exists, fall back to
`handleExistingHash`; otherwise rewrite the moved meta with the computed
hash. -/
def moveToFinalHash (s : Store) (tempHash computedHash : String)
    (tempMeta meta : Option ArtifactMeta) (now : Int) :
    Except StorageErr ArtifactMeta × Store :=
  match s.move tempHash computedHash with
  | (.error e, s₁) =>
    match s₁.getMeta computedHash with
    | some _ => handleExistingHash s₁ computedHash tempHash tempMeta meta now
    | none =>
      let s₂ := (cleanupTempHash s₁ tempHash now).2
      (.error e, s₂)
  | (.ok _, s₁) =>
    match tempMeta with
    | some tm =>
      let tm' := { tm with hash := computedHash }
      (.ok tm', s₁.updateMeta tm')
    | none =>
      match s₁.getMeta computedHash with
      | some m => (.ok m, s₁)
      | none => (.error (.notFound computedHash), s₁)

/-- `HashComputingArtifactStorage.Create`: a resolved hash is delegated
directly; an unresolved hash is streamed to `"temp-" ++ uuid` through a
tee into the hasher, after which the artifact is promoted to the hex
digest of the consumed bytes (or merged if that digest already exists). -/
def hcCreate (hashHex : Bytes → String) (s : Store) (hash : String)
    (r : Option Bytes) (size : Int) (meta : Option ArtifactMeta)
    (uuid : String) (now : Int) :
    Except StorageErr ArtifactMeta × Store :=
  if ¬isUnknownHash hash then
    let (res, s', _) := s.create hash r size meta now
    (res, s')
  else
    let tempHash := "temp-" ++ uuid
    match s.create tempHash r size meta now with
    | (.error e, s₁, _) => (.error e, s₁)
    | (.ok tempMeta, s₁, consumed) =>
      let computedHash := hashHex consumed
      match s₁.getMeta computedHash with
      | some _ => handleExistingHash s₁ computedHash tempHash (some tempMeta) meta now
      | none => moveToFinalHash s₁ tempHash computedHash (some tempMeta) meta now

/-! ## Private OCI registry service

`DockerRegistryPrivateService` from
`internal/registry/docker/private/handlers.go`, backed (as in the
repository's own service tests) by the `SimpleFileStorage` model. -/

/-- Errors of the private registry service layer.  Each constructor
stands for one `fmt.Errorf` site; only `digestMismatch` produces a
message containing the substring `"digest mismatch"`, which is what the
HTTP handlers test with `strings.Contains`. -/
inductive RegErr where
  | sessionNotFound
  | sessionNameMismatch
  | noBlobData
  | digestMismatch (expected calculated : String)
  | manifestRefNotFound
  | manifestRefInvalid
  | readFailed
  | storeFailed (e : StorageErr)
  | panicNilReader
deriving DecidableEq, Repr

/-- `strings.Contains(err.Error(), "digest mismatch")` on the service
errors: only the `digestMismatch` constructor's message
(`"digest mismatch: expected %s, got %s"`) contains that substring. -/
def errIsDigestMismatch : RegErr → Bool
  | .digestMismatch _ _ => true
  | _ => false

/-- An in-memory blob upload session (`UploadSession`). -/
structure UploadSession where
  uuid : String
  name : String
  size : Int
  offset : Int
  createdAt : Int
  data : Option Bytes  -- `Data *bytes.Buffer`, nil until the first chunk
deriving DecidableEq, Repr

/-- The private registry service state: the upload-session map plus the
backing store. -/
structure SvcState where
  sessions : List (String × UploadSession)
  store : Store
deriving DecidableEq, Repr

/-- `getManifestRefKey`: the synthetic tag→digest pointer key. -/
def getManifestRefKey (name reference : String) : String :=
  "manifest-ref:" ++ name ++ ":" ++ reference

/-- `calculateDigest`: `"sha256:" + hex(sha256(data))`. -/
def calculateDigest (hashHex : Bytes → String) (data : Bytes) : String :=
  "sha256:" ++ hashHex data

/-- `DockerRegistryPrivateService.PutBlob`: stream to storage through a
SHA-256 tee, then compare the computed digest of the consumed bytes with
the declared one; on mismatch after a fresh store, best-effort delete the
just-created artifact through the reference-counted Delete path. -/
def putBlob (hashHex : Bytes → String) (s : Store) (name digest : String)
    (bytes : Bytes) (size : Int) (now : Int) : Except RegErr Unit × Store :=
  let ref : ArtifactReference := ⟨name, "blob", now⟩
  let meta : ArtifactMeta := ⟨digest, size, now, [ref]⟩
  match s.create digest (some bytes) size (some meta) now with
  | (.ok _, s₁, consumed) =>
    let calculated := calculateDigest hashHex consumed
    if calculated ≠ digest then
      -- best-effort cleanup; the Delete result is discarded
      let (_, s₂) := s₁.delete digest ref
      (.error (.digestMismatch digest calculated), s₂)
    else (.ok (), s₁)
  | (.error (.hashConflict _ _ _), s₁, consumed) =>
    -- artifact exists: append the reference and update the meta,
    -- then verify the digest (of the bytes consumed, which is none)
    let s₂ :=
      match s₁.getMeta digest with
      | some existingMeta =>
        s₁.updateMeta { existingMeta with references := existingMeta.references ++ [ref] }
      | none => s₁
    let calculated := calculateDigest hashHex consumed
    if calculated ≠ digest then (.error (.digestMismatch digest calculated), s₂)
    else (.ok (), s₂)
  | (.error e, s₁, _) => (.error (.storeFailed e), s₁)

/-- `DockerRegistryPrivateService.CompleteBlobUpload`: pop the session
from the map first (it is dropped whether or not anything that follows
succeeds), then combine the accumulated buffer with the final chunk and
hand the result to `PutBlob`. -/
def completeBlobUpload (hashHex : Bytes → String) (st : SvcState)
    (name uuid digest : String) (finalChunk : Option Bytes) (now : Int) :
    Except RegErr Unit × SvcState :=
  match alookup uuid st.sessions with
  | none => (.error .sessionNotFound, st)
  | some session =>
    let st₁ : SvcState := { st with sessions := aerase uuid st.sessions }
    if session.name ≠ name then (.error .sessionNameMismatch, st₁)
    else
      let sessionData := session.data.getD []
      let hasData := session.data.isSome ∧ sessionData ≠ []
      match finalChunk with
      | none =>
        if hasData then
          let (res, store') := putBlob hashHex st₁.store name digest sessionData
            (sessionData.length : Int) now
          (res, { st₁ with store := store' })
        else (.error .noBlobData, st₁)
      | some finalData =>
        -- `totalSize` starts at len(session.Data) when the buffer is
        -- non-nil (else -1) and the final chunk's length is added
        let blobBytes := sessionData ++ finalData
        let totalSize : Int := (sessionData.length : Int) + finalData.length
        let (res, store') := putBlob hashHex st₁.store name digest blobBytes totalSize now
        (res, { st₁ with store := store' })

/-- `DockerRegistryPrivateService.PutManifest`: store the manifest under
its content digest, then create the tag→digest pointer record under
`manifest-ref:{name}:{reference}` — passing a nil reader to the pointer
`Create`. -/
def putManifest (hashHex : Bytes → String) (s : Store)
    (name reference : String) (data : Bytes) (now : Int) :
    Except RegErr Unit × Store :=
  let digest := calculateDigest hashHex data
  let storageKey := digest
  let ref : ArtifactReference := ⟨name, "manifest", now⟩
  let meta : ArtifactMeta := ⟨storageKey, (data.length : Int), now, [ref]⟩
  let (r₁, s₁, _) := s.create storageKey (some data) (data.length : Int) (some meta) now
  let afterContent : Except RegErr Store :=
    match r₁ with
    | .ok _ => .ok s₁
    | .error (.hashConflict _ _ _) =>
      match s₁.getMeta storageKey with
      | some existingMeta =>
        .ok (s₁.updateMeta { existingMeta with references := existingMeta.references ++ [ref] })
      | none => .ok s₁  -- GetMeta failed: the conflict branch falls through silently
    | .error e => .error (.storeFailed e)
  match afterContent with
  | .error e => (.error e, s₁)
  | .ok s₂ =>
    let refKey' := getManifestRefKey name reference
    let refMeta : ArtifactMeta := ⟨digest, 0, now, []⟩
    match s₂.create refKey' none 0 (some refMeta) now with
    | (.ok _, s₃, _) => (.ok (), s₃)
    | (.error .nilReaderPanic, s₃, _) =>
      -- the nil-reader panic propagates; the error-handling branch below
      -- is never reached for it
      (.error .panicNilReader, s₃)
    | (.error e, s₃, _) =>
      match s₃.getMeta refKey' with
      | some existingRefMeta =>
        (.ok (), s₃.updateMeta { existingRefMeta with hash := digest })
      | none => (.error (.storeFailed e), s₃)

/-- `DockerRegistryPrivateService.GetManifest`: read the pointer meta,
follow the digest stored in its `hash` field, and read the content blob
(whole range). -/
def getManifest (s : Store) (name reference : String) : Except RegErr Bytes :=
  match s.getMeta (getManifestRefKey name reference) with
  | none => .error .manifestRefNotFound
  | some meta =>
    if meta.hash = "" then .error .manifestRefInvalid
    else
      match s.read meta.hash 0 (-1) with
      | .error _ => .error .readFailed
      | .ok (bytes, _, _) => .ok bytes

/-- `CheckBlobExists` followed by the HEAD handler: 200 when the meta
exists, otherwise `BLOB_UNKNOWN` which maps to HTTP 404. -/
def headBlobStatus (s : Store) (digest : String) : Nat :=
  match s.getMeta digest with
  | some _ => 200
  | none => 404

/-- The HTTP outcome of the blob-upload write handlers
(`handleSingleRequestBlobUpload` and `handleCompleteBlobUpload`): 201 on
success; errors whose message contains "digest mismatch" become
`BLOB_UPLOAD_INVALID` (HTTP 400), every other error becomes
`BLOB_UPLOAD_UNKNOWN` (HTTP 404). -/
def uploadResponse : Except RegErr Unit → Nat × String
  | .ok _ => (201, "")
  | .error e =>
    if errIsDigestMismatch e then (400, "BLOB_UPLOAD_INVALID")
    else (404, "BLOB_UPLOAD_UNKNOWN")

/-! ## Sequences of operations and specification-side helpers -/

/-- A sequence of `Create(H, data, len(data), meta_i)` calls against the
same hash and data, returning the final store and each call's result. -/
def createSeq (hash : String) (data : Bytes) (now : Int) :
    Store → List ArtifactMeta → Store × List (Except StorageErr ArtifactMeta)
  | s, [] => (s, [])
  | s, m :: ms =>
    let (res, s', _) := s.create hash (some data) (data.length : Int) (some m) now
    let (s'', rs) := createSeq hash data now s' ms
    (s'', res :: rs)

/-- A sequence of `Delete(H, ref_i)` calls, returning the final store and
each call's result. -/
def deleteSeq (hash : String) :
    Store → List ArtifactReference → Store × List (Except StorageErr (Option ArtifactMeta))
  | s, [] => (s, [])
  | s, r :: rest =>
    let (res, s') := s.delete hash r
    let (s'', results) := deleteSeq hash s' rest
    (s'', res :: results)

/-- Specification-side helper: the maximum of a list of timestamps
(`none` on the empty list). -/
def tsListMax : List Int → Option Int
  | [] => none
  | t :: ts => some (ts.foldl max t)

/-- Specification-side helper: the maximum timestamp supplied for a given
dedup key among a list of references. -/
def maxTs (l : List ArtifactReference) (k : String) : Option Int :=
  tsListMax ((l.filter (fun r => refKey r = k)).map (fun r => r.referencedTimestamp))

/-- The normal form produced by `mergeReferences`' accumulation loop when
run over a single list: `mergeReferences e n = dedupRefs (e ++ n)`. -/
def dedupRefs (l : List ArtifactReference) : List ArtifactReference :=
  l.foldl addRef []

/-! ## Association-list lemmas -/

@[simp] theorem alookup_nil {α : Type} (k : String) :
    alookup (α := α) k [] = none := rfl

@[simp] theorem alookup_ainsert_self {α : Type} (k : String) (v : α)
    (l : List (String × α)) : alookup k (ainsert k v l) = some v := by
  induction l with
  | nil => simp [alookup, ainsert]
  | cons hd t ih =>
    by_cases h : hd.1 = k <;> simp [alookup, ainsert, h, ih]

theorem alookup_ainsert_ne {α : Type} {k k' : String} (v : α)
    (l : List (String × α)) (h : k' ≠ k) :
    alookup k (ainsert k' v l) = alookup k l := by
  induction l with
  | nil => simp [alookup, ainsert, h]
  | cons hd t ih =>
    by_cases h' : hd.1 = k'
    · simp [alookup, ainsert, h', h, Ne.symm h]
    · by_cases h'' : hd.1 = k <;>
        simp [alookup, ainsert, h', h'', h, Ne.symm h, ih]

@[simp] theorem alookup_aerase_self {α : Type} (k : String)
    (l : List (String × α)) : alookup k (aerase k l) = none := by
  induction l with
  | nil => simp [alookup, aerase]
  | cons hd t ih =>
    by_cases h : hd.1 = k <;> simp [alookup, aerase, h, ih]

theorem alookup_aerase_ne {α : Type} {k k' : String}
    (l : List (String × α)) (h : k' ≠ k) :
    alookup k (aerase k' l) = alookup k l := by
  induction l with
  | nil => simp [aerase]
  | cons hd t ih =>
    by_cases h' : hd.1 = k'
    · simp [alookup, aerase, h', h, Ne.symm h, ih]
    · by_cases h'' : hd.1 = k <;>
        simp [alookup, aerase, h', h'', h, Ne.symm h, ih]

/-! ## C1 — Create/Read round-trip on a fresh store -/

/-- **C1.** For every hash `H`, byte sequence `data`, and metadata `meta`,
running `Create(H, data, size, meta)` on a fresh store and then
`Read(H, 0, -1)` yields exactly `data`, and `GetMeta(H).length` equals
`len(data)`.  The recorded length equals the bytes actually written for
*every* declared `size`, including `-1` (the fresh-create path streams the
whole reader and records the resulting file size regardless of `size`). -/
theorem C1_create_read_roundtrip (hash : String) (data : Bytes) (size : Int)
    (meta : Option ArtifactMeta) (now : Int) :
    ∃ m : ArtifactMeta,
      (emptyStore.create hash (some data) size meta now).1 = .ok m ∧
      m.length = (data.length : Int) ∧
      ((emptyStore.create hash (some data) size meta now).2.1).read hash 0 (-1) =
        .ok (data, 0, (data.length : Int)) ∧
      (((emptyStore.create hash (some data) size meta now).2.1).getMeta hash).map
        (fun m' => m'.length) = some (data.length : Int) := by
  cases meta with
  | none =>
    refine ⟨_, rfl, rfl, ?_, ?_⟩
    · simp [Store.create, emptyStore, Store.read]
      omega
    · simp [Store.create, emptyStore, Store.getMeta]
  | some m =>
    refine ⟨_, rfl, rfl, ?_, ?_⟩
    · simp [Store.create, emptyStore, Store.read]
      omega
    · simp [Store.create, emptyStore, Store.getMeta]

/-! ## C2 — Create on an existing blob: conflict detection and merge -/

/-- **C2 (amended).** For every hash whose blob file already exists with
meta recording length `L`, `Create(H, r, size, meta)` never overwrites the
existing blob bytes; it fails with `HashConflict(L, size)` exactly when
`size ≠ -1` and `size ≠ L` (so any negative size other than the `-1`
sentinel also conflicts), and otherwise merges `meta.references` into the
existing meta and returns the merged meta, leaving the stored bytes
untouched. -/
theorem C2_create_existing (s : Store) (hash : String) (blob : Blob)
    (m : ArtifactMeta) (r : Option Bytes) (size : Int)
    (om : Option ArtifactMeta) (now : Int)
    (hb : alookup hash s.blobs = some blob) (hm : s.getMeta hash = some m) :
    ((size ≠ -1 ∧ size ≠ m.length) →
      s.create hash r size om now = (.error (.hashConflict hash m.length size), s, [])) ∧
    ((size = -1 ∨ size = m.length) →
      ∃ merged : ArtifactMeta,
        (s.create hash r size om now).1 = .ok merged ∧
        merged.hash = m.hash ∧ merged.length = m.length ∧
        merged.createdTimestamp = m.createdTimestamp ∧
        merged.references =
          (match om with
           | some mm =>
             if mm.references ≠ [] then mergeReferences m.references mm.references
             else m.references
           | none => m.references) ∧
        ((s.create hash r size om now).2.1).blobs = s.blobs ∧
        alookup hash ((s.create hash r size om now).2.1).blobs = some blob) := by
  have hm' : alookup hash s.metas = some m := hm
  constructor
  · intro hcond
    simp [Store.create, hb, hm', hcond]
  · intro hcond
    have hnot : ¬(size ≠ -1 ∧ size ≠ m.length) := by
      rcases hcond with h | h <;> simp [h]
    cases om with
    | none =>
      have hbeq : ((s.create hash r size none now).2.1).blobs = s.blobs := by
        simp [Store.create, hb, hm', hnot]
      refine ⟨m, ?_, rfl, rfl, rfl, rfl, hbeq, by rw [hbeq]; exact hb⟩
      simp [Store.create, hb, hm', hnot]
    | some mm =>
      have hbeq : ((s.create hash r size (some mm) now).2.1).blobs = s.blobs := by
        simp [Store.create, hb, hm', hnot]
      by_cases hrefs : mm.references = []
      · refine ⟨m, ?_, rfl, rfl, rfl, ?_, hbeq, by rw [hbeq]; exact hb⟩ <;>
          simp [Store.create, hb, hm', hnot, hrefs]
      · refine ⟨{ m with references := mergeReferences m.references mm.references },
          ?_, rfl, rfl, rfl, ?_, hbeq, by rw [hbeq]; exact hb⟩ <;>
          simp [Store.create, hb, hm', hnot, hrefs]

/-- Witness for C2: the theorem applied to a concrete one-artifact store
(blob `[7]` of length 1 at hash `"abcd"`), with both hypotheses
discharged by evaluation. -/
theorem C2_create_existing_witness :
    alookup "abcd" (Store.blobs ⟨[("abcd", ⟨[7], 5⟩)],
      [("abcd", ⟨"abcd", 1, 5, [⟨"n", "r", 1⟩]⟩)], [], []⟩) = some ⟨[7], 5⟩ ∧
    Store.getMeta ⟨[("abcd", ⟨[7], 5⟩)],
      [("abcd", ⟨"abcd", 1, 5, [⟨"n", "r", 1⟩]⟩)], [], []⟩ "abcd" =
      some ⟨"abcd", 1, 5, [⟨"n", "r", 1⟩]⟩ ∧
    ((((3 : Int) ≠ -1 ∧ (3 : Int) ≠ (ArtifactMeta.length ⟨"abcd", 1, 5, [⟨"n", "r", 1⟩]⟩)) →
      Store.create ⟨[("abcd", ⟨[7], 5⟩)],
          [("abcd", ⟨"abcd", 1, 5, [⟨"n", "r", 1⟩]⟩)], [], []⟩ "abcd"
          (some [1, 2, 3]) 3 none 9 =
        (.error (.hashConflict "abcd"
            (ArtifactMeta.length ⟨"abcd", 1, 5, [⟨"n", "r", 1⟩]⟩) 3),
          ⟨[("abcd", ⟨[7], 5⟩)], [("abcd", ⟨"abcd", 1, 5, [⟨"n", "r", 1⟩]⟩)], [], []⟩, [])) ∧
    (((3 : Int) = -1 ∨ (3 : Int) = (ArtifactMeta.length ⟨"abcd", 1, 5, [⟨"n", "r", 1⟩]⟩)) →
      ∃ merged : ArtifactMeta,
        (Store.create ⟨[("abcd", ⟨[7], 5⟩)],
            [("abcd", ⟨"abcd", 1, 5, [⟨"n", "r", 1⟩]⟩)], [], []⟩ "abcd"
            (some [1, 2, 3]) 3 none 9).1 = .ok merged ∧
        merged.hash = (ArtifactMeta.hash ⟨"abcd", 1, 5, [⟨"n", "r", 1⟩]⟩) ∧
        merged.length = (ArtifactMeta.length ⟨"abcd", 1, 5, [⟨"n", "r", 1⟩]⟩) ∧
        merged.createdTimestamp =
          (ArtifactMeta.createdTimestamp ⟨"abcd", 1, 5, [⟨"n", "r", 1⟩]⟩) ∧
        merged.references =
          (ArtifactMeta.references ⟨"abcd", 1, 5, [⟨"n", "r", 1⟩]⟩) ∧
        ((Store.create ⟨[("abcd", ⟨[7], 5⟩)],
            [("abcd", ⟨"abcd", 1, 5, [⟨"n", "r", 1⟩]⟩)], [], []⟩ "abcd"
            (some [1, 2, 3]) 3 none 9).2.1).blobs =
          (Store.blobs ⟨[("abcd", ⟨[7], 5⟩)],
            [("abcd", ⟨"abcd", 1, 5, [⟨"n", "r", 1⟩]⟩)], [], []⟩) ∧
        alookup "abcd" ((Store.create ⟨[("abcd", ⟨[7], 5⟩)],
            [("abcd", ⟨"abcd", 1, 5, [⟨"n", "r", 1⟩]⟩)], [], []⟩ "abcd"
            (some [1, 2, 3]) 3 none 9).2.1).blobs = some ⟨[7], 5⟩)) :=
  ⟨rfl, rfl,
    C2_create_existing ⟨[("abcd", ⟨[7], 5⟩)],
      [("abcd", ⟨"abcd", 1, 5, [⟨"n", "r", 1⟩]⟩)], [], []⟩ "abcd" ⟨[7], 5⟩
      ⟨"abcd", 1, 5, [⟨"n", "r", 1⟩]⟩ (some [1, 2, 3]) 3 none 9 rfl rfl⟩

/-- Counterexample to C2 as frozen: with recorded length `1`, a Create
with `size = -2` raises `HashConflict` even though `size ≥ 0` is false,
whereas the claim says validation is only triggered by `size ≥ 0`. -/
theorem C2_counterexample_negative_size :
    (Store.create ⟨[("abcd", ⟨[7], 5⟩)],
        [("abcd", ⟨"abcd", 1, 5, [⟨"n", "r", 1⟩]⟩)], [], []⟩ "abcd"
        (some []) (-2) none 9).1 =
      .error (.hashConflict "abcd" 1 (-2)) ∧
    ¬((-2 : Int) ≥ 0 ∧ (-2 : Int) ≠ 1) :=
  ⟨rfl, by decide⟩

/-! ## C8 — Read range computation -/

/-- **C8 (amended).** For every stored blob of size `fileSize` and every
request `(offset, length)`, Read clamps the offset from below at `0` only
(an offset beyond the file is *not* clamped down to `fileSize`), sets
`actualLength = fileSize − offset` floored at `0` whenever `length = -1`
or `offset + length > fileSize`, and returns a reader yielding exactly
`actualLength` bytes; a request with `offset > fileSize` reports the
*requested* offset together with an actual length of `0`. -/
theorem C8_read_range (s : Store) (hash : String) (blob : Blob)
    (offset length : Int) (hb : alookup hash s.blobs = some blob) :
    ∃ (bytes : Bytes) (off len : Int),
      s.read hash offset length = .ok (bytes, off, len) ∧
      off = (if offset < 0 then 0 else offset) ∧
      ((length = -1 ∨ off + length > (blob.bytes.length : Int)) →
        len = max ((blob.bytes.length : Int) - off) 0) ∧
      (bytes.length : Int) = len ∧
      (offset > (blob.bytes.length : Int) → off = offset ∧ len = 0 ∧ bytes = []) := by
  simp only [Store.read, hb]
  refine ⟨_, _, _, rfl, rfl, ?_, ?_, ?_⟩
  · intro h
    omega
  · rw [List.length_take, List.length_drop]
    omega
  · intro hbig
    refine ⟨by omega, by omega, List.eq_nil_of_length_eq_zero ?_⟩
    rw [List.length_take, List.length_drop]
    omega


/-- Witness for C8: the theorem applied to a concrete three-byte blob
with a mid-file range request. -/
theorem C8_read_range_witness :
    alookup "abcd" (Store.blobs ⟨[("abcd", ⟨[1, 2, 3], 0⟩)], [], [], []⟩) =
      some ⟨[1, 2, 3], 0⟩ ∧
    ∃ (bytes : Bytes) (off len : Int),
      Store.read ⟨[("abcd", ⟨[1, 2, 3], 0⟩)], [], [], []⟩ "abcd" 1 (-1) =
        .ok (bytes, off, len) ∧
      off = (if (1 : Int) < 0 then 0 else 1) ∧
      (((-1 : Int) = -1 ∨ off + (-1) > ((3 : Nat) : Int)) →
        len = max (((3 : Nat) : Int) - off) 0) ∧
      (bytes.length : Int) = len ∧
      ((1 : Int) > ((3 : Nat) : Int) → off = 1 ∧ len = 0 ∧ bytes = []) :=
  ⟨rfl, C8_read_range ⟨[("abcd", ⟨[1, 2, 3], 0⟩)], [], [], []⟩ "abcd"
    ⟨[1, 2, 3], 0⟩ 1 (-1) rfl⟩

/-- Counterexample to C8 as frozen: on a three-byte blob, a read at
offset `5` reports actual offset `5`, not the clamped `fileSize = 3`
that the claim specifies. -/
theorem C8_counterexample_offset_not_clamped :
    Store.read ⟨[("abcd", ⟨[1, 2, 3], 0⟩)], [], [], []⟩ "abcd" 5 (-1) =
      .ok ([], 5, 0) ∧ (5 : Int) ≠ 3 :=
  ⟨rfl, by decide⟩

/-! ## C9 — Create over a torn blob (blob present, meta absent) -/

/-- **C9 (amended).** If a blob file for hash `H` is present on disk while
its meta file is absent (the state a cancelled partial write leaves), the
next `Create(H, data, size, meta)` does *not* rewrite the blob: Create
synthesizes a meta from the file's stats, and a `size` that differs from
the torn blob's on-disk length (with `size ≠ -1`) is detected as a length
mismatch and fails with `HashConflict`, leaving the torn bytes in place;
a matching or `-1` size silently adopts the torn blob and merely writes
the synthesized meta. -/
theorem C9_torn_blob_not_rewritten (s : Store) (hash : String) (blob : Blob)
    (data : Bytes) (size : Int) (om : Option ArtifactMeta) (now : Int)
    (hb : alookup hash s.blobs = some blob) (hm : s.getMeta hash = none) :
    ((size ≠ -1 ∧ size ≠ (blob.bytes.length : Int)) →
      s.create hash (some data) size om now =
        (.error (.hashConflict hash (blob.bytes.length : Int) size), s, [])) ∧
    ((size = -1 ∨ size = (blob.bytes.length : Int)) →
      alookup hash ((s.create hash (some data) size om now).2.1).blobs = some blob ∧
      ∃ m : ArtifactMeta,
        (s.create hash (some data) size om now).1 = .ok m ∧
        m.hash = hash ∧ m.length = (blob.bytes.length : Int) ∧
        m.createdTimestamp = blob.mtime) := by
  have hm' : alookup hash s.metas = none := hm
  constructor
  · intro hcond
    simp [Store.create, hb, hm', hcond]
  · intro hcond
    have hnot : ¬(size ≠ -1 ∧ size ≠ (blob.bytes.length : Int)) := by
      rcases hcond with h | h <;> simp [h]
    cases om with
    | none =>
      refine ⟨?_, ⟨⟨hash, (blob.bytes.length : Int), blob.mtime, []⟩,
        ?_, rfl, rfl, rfl⟩⟩ <;>
        simp [Store.create, hb, hm', hnot]
    | some mm =>
      by_cases hrefs : mm.references = []
      · refine ⟨?_, ⟨⟨hash, (blob.bytes.length : Int), blob.mtime, []⟩,
          ?_, rfl, rfl, rfl⟩⟩ <;>
          simp [Store.create, hb, hm', hnot, hrefs]
      · refine ⟨?_, ⟨⟨hash, (blob.bytes.length : Int), blob.mtime,
          mergeReferences [] mm.references⟩, ?_, rfl, rfl, rfl⟩⟩ <;>
          simp [Store.create, hb, hm', hnot, hrefs]

/-- Witness for C9: a torn one-byte blob with no meta; `size = 2`
conflicts, `size = -1` adopts the torn blob. -/
theorem C9_torn_blob_witness :
    alookup "abcd" (Store.blobs ⟨[("abcd", ⟨[1], 4⟩)], [], [], []⟩) = some ⟨[1], 4⟩ ∧
    Store.getMeta ⟨[("abcd", ⟨[1], 4⟩)], [], [], []⟩ "abcd" = none ∧
    ((((2 : Int) ≠ -1 ∧ (2 : Int) ≠ ((1 : Nat) : Int)) →
      Store.create ⟨[("abcd", ⟨[1], 4⟩)], [], [], []⟩ "abcd"
          (some [1, 2]) 2 none 9 =
        (.error (.hashConflict "abcd" ((1 : Nat) : Int) 2),
          ⟨[("abcd", ⟨[1], 4⟩)], [], [], []⟩, [])) ∧
    (((2 : Int) = -1 ∨ (2 : Int) = ((1 : Nat) : Int)) →
      alookup "abcd" ((Store.create ⟨[("abcd", ⟨[1], 4⟩)], [], [], []⟩ "abcd"
          (some [1, 2]) 2 none 9).2.1).blobs = some ⟨[1], 4⟩ ∧
      ∃ m : ArtifactMeta,
        (Store.create ⟨[("abcd", ⟨[1], 4⟩)], [], [], []⟩ "abcd"
            (some [1, 2]) 2 none 9).1 = .ok m ∧
        m.hash = "abcd" ∧ m.length = ((1 : Nat) : Int) ∧
        m.createdTimestamp = (Blob.mtime ⟨[1], 4⟩))) :=
  ⟨rfl, rfl,
    C9_torn_blob_not_rewritten ⟨[("abcd", ⟨[1], 4⟩)], [], [], []⟩ "abcd"
      ⟨[1], 4⟩ [1, 2] 2 none 9 rfl rfl⟩

/-- Counterexample to C9 as frozen: with a torn blob `[1]` (no meta), a
Create carrying `data = [1, 2]` and `size = 2` fails with `HashConflict`
and the stored bytes remain the torn `[1]` — the blob is not rewritten to
`data` as the claim states. -/
theorem C9_counterexample_no_rewrite :
    (Store.create ⟨[("abcd", ⟨[1], 4⟩)], [], [], []⟩ "abcd"
        (some [1, 2]) 2 none 9).1 = .error (.hashConflict "abcd" 1 2) ∧
    alookup "abcd" ((Store.create ⟨[("abcd", ⟨[1], 4⟩)], [], [], []⟩ "abcd"
        (some [1, 2]) 2 none 9).2.1).blobs = some ⟨[1], 4⟩ ∧
    ([1] : Bytes) ≠ [1, 2] :=
  ⟨rfl, rfl, by decide⟩

/-! ## C10 — CompleteBlobUpload destroys the session up front -/

/-- The session map after `CompleteBlobUpload`: the entry for `uuid` is
removed as the very first step when it exists, and nothing that follows
(name validation, chunk assembly, `PutBlob`) re-inserts it. -/
theorem completeBlobUpload_sessions (hashHex : Bytes → String) (st : SvcState)
    (name uuid digest : String) (finalChunk : Option Bytes) (now : Int) :
    ((completeBlobUpload hashHex st name uuid digest finalChunk now).2).sessions =
      match alookup uuid st.sessions with
      | none => st.sessions
      | some _ => aerase uuid st.sessions := by
  unfold completeBlobUpload
  cases h : alookup uuid st.sessions with
  | none => rfl
  | some session =>
    by_cases hn : session.name ≠ name
    · simp [hn]
    · cases finalChunk with
      | none =>
        by_cases hd : session.data.isSome ∧ session.data.getD [] ≠ [] <;>
          simp [hn, hd]
      | some finalData => simp [hn]

/-- A completion attempt for a uuid with no live session fails with the
upload-session-not-found error. -/
theorem completeBlobUpload_noSession (hashHex : Bytes → String) (st : SvcState)
    (name uuid digest : String) (finalChunk : Option Bytes) (now : Int)
    (h : alookup uuid st.sessions = none) :
    (completeBlobUpload hashHex st name uuid digest finalChunk now).1 =
      .error .sessionNotFound := by
  unfold completeBlobUpload
  rw [h]

/-- **C10.** `CompleteBlobUpload` removes the upload session from the
in-memory map before validating or storing anything: after any completion
attempt — successful or failed — the session for `uuid` is gone, a
retried PUT with the same `uuid` fails with the upload-session-not-found
error, and that error is mapped to `BLOB_UPLOAD_UNKNOWN` with HTTP 404. -/
theorem C10_complete_upload_drops_session (hashHex hashHex' : Bytes → String)
    (st : SvcState) (name uuid digest : String) (finalChunk : Option Bytes)
    (now : Int) (name' digest' : String) (finalChunk' : Option Bytes) (now' : Int) :
    alookup uuid
      ((completeBlobUpload hashHex st name uuid digest finalChunk now).2).sessions = none ∧
    (completeBlobUpload hashHex'
        (completeBlobUpload hashHex st name uuid digest finalChunk now).2
        name' uuid digest' finalChunk' now').1 = .error .sessionNotFound ∧
    uploadResponse (.error .sessionNotFound) = (404, "BLOB_UPLOAD_UNKNOWN") := by
  have hs := completeBlobUpload_sessions hashHex st name uuid digest finalChunk now
  have hnone : alookup uuid
      ((completeBlobUpload hashHex st name uuid digest finalChunk now).2).sessions = none := by
    rw [hs]
    cases h : alookup uuid st.sessions with
    | none => exact h
    | some _ => exact alookup_aerase_self uuid st.sessions
  exact ⟨hnone,
    completeBlobUpload_noSession hashHex' _ name' uuid digest' finalChunk' now' hnone,
    rfl⟩

/-- Variant of `alookup_ainsert_ne` with implicit value and list, for use
as a conditional simp lemma. -/
theorem alookup_ainsert_ne' {α : Type} {k k' : String} {v : α}
    {l : List (String × α)} (h : k' ≠ k) :
    alookup k (ainsert k' v l) = alookup k l :=
  alookup_ainsert_ne v l h

/-- Variant of `alookup_aerase_ne` with implicit list. -/
theorem alookup_aerase_ne' {α : Type} {k k' : String}
    {l : List (String × α)} (h : k' ≠ k) :
    alookup k (aerase k' l) = alookup k l :=
  alookup_aerase_ne l h

/-! ## C7 — digest mismatch on blob upload -/

/-- **C7.** For every blob upload carrying a declared digest whose blob
is not yet stored, the SHA-256 of the streamed bytes is computed
alongside the store; when it differs from the declared digest the
request fails with the digest-mismatch error, which both upload handlers
map to `BLOB_UPLOAD_INVALID` / HTTP 400, the freshly stored blob is
removed again through the reference-counted Delete path, and a
subsequent HEAD of that digest returns 404. -/
theorem C7_digest_mismatch_cleanup (hashHex : Bytes → String) (s : Store)
    (name digest : String) (data : Bytes) (size now : Int)
    (hfresh : alookup digest s.blobs = none)
    (hmm : calculateDigest hashHex data ≠ digest) :
    (putBlob hashHex s name digest data size now).1 =
      .error (.digestMismatch digest (calculateDigest hashHex data)) ∧
    uploadResponse (putBlob hashHex s name digest data size now).1 =
      (400, "BLOB_UPLOAD_INVALID") ∧
    ((putBlob hashHex s name digest data size now).2).getMeta digest = none ∧
    alookup digest ((putBlob hashHex s name digest data size now).2).blobs = none ∧
    headBlobStatus (putBlob hashHex s name digest data size now).2 digest = 404 := by
  have h1 : (putBlob hashHex s name digest data size now).1 =
      .error (.digestMismatch digest (calculateDigest hashHex data)) := by
    simp [putBlob, Store.create, hfresh, hmm]
  have hmeta : ((putBlob hashHex s name digest data size now).2).getMeta digest = none := by
    simp [putBlob, Store.create, hfresh, hmm, Store.delete, Store.getMeta,
      Store.moveToTrash, refKey]
  refine ⟨h1, ?_, hmeta, ?_, ?_⟩
  · rw [h1]; rfl
  · simp [putBlob, Store.create, hfresh, hmm, Store.delete, Store.getMeta,
      Store.moveToTrash, refKey]
  · rw [headBlobStatus, hmeta]

/-- Witness for C7: a mismatching PUT of `[1, 2]` declared as
`"sha256:xx"` against an empty store, with `hashHex` the constant
function `"zz"`. -/
theorem C7_digest_mismatch_cleanup_witness :
    alookup "sha256:xx" (Store.blobs emptyStore) = none ∧
    calculateDigest (fun _ => "zz") [1, 2] ≠ "sha256:xx" ∧
    (putBlob (fun _ => "zz") emptyStore "lib/alpine" "sha256:xx" [1, 2] 2 7).1 =
      .error (.digestMismatch "sha256:xx" (calculateDigest (fun _ => "zz") [1, 2])) ∧
    uploadResponse (putBlob (fun _ => "zz") emptyStore "lib/alpine" "sha256:xx"
        [1, 2] 2 7).1 = (400, "BLOB_UPLOAD_INVALID") ∧
    ((putBlob (fun _ => "zz") emptyStore "lib/alpine" "sha256:xx" [1, 2] 2 7).2).getMeta
        "sha256:xx" = none ∧
    alookup "sha256:xx" ((putBlob (fun _ => "zz") emptyStore "lib/alpine" "sha256:xx"
        [1, 2] 2 7).2).blobs = none ∧
    headBlobStatus (putBlob (fun _ => "zz") emptyStore "lib/alpine" "sha256:xx"
        [1, 2] 2 7).2 "sha256:xx" = 404 :=
  ⟨rfl, by decide,
    C7_digest_mismatch_cleanup (fun _ => "zz") emptyStore "lib/alpine" "sha256:xx"
      [1, 2] 2 7 rfl (by decide)⟩

/-! ## C6 — manifest PUT/GET round trip -/

/-- **C6 (bug witness).** `PutManifest` on a fresh store stores the
manifest content under its digest, but the pointer-record `Create` for
`manifest-ref:{name}:{reference}` is invoked with a nil reader, which
panics inside `SimpleFileStorage.Create` (`io.Copy` on a nil interface)
after the empty pointer blob file was created and before any pointer meta
is written.  The PUT therefore never completes and a subsequent
`GetManifest` of the same name/reference fails — the claimed PUT-then-GET
round trip is impossible for a fresh tag. -/
theorem C6_putManifest_nil_reader_panic (hashHex : Bytes → String)
    (name reference : String) (data : Bytes) (now : Int)
    (hne : calculateDigest hashHex data ≠ getManifestRefKey name reference) :
    (putManifest hashHex emptyStore name reference data now).1 =
      .error .panicNilReader ∧
    ((putManifest hashHex emptyStore name reference data now).2).getMeta
      (getManifestRefKey name reference) = none ∧
    getManifest (putManifest hashHex emptyStore name reference data now).2
      name reference = .error .manifestRefNotFound := by
  have hne' : "sha256:" ++ hashHex data ≠ getManifestRefKey name reference := hne
  refine ⟨?_, ?_, ?_⟩ <;>
    simp [putManifest, Store.create, emptyStore, getManifest, Store.getMeta,
      calculateDigest, alookup_ainsert_ne' hne']

/-- Witness for C6's bug theorem at concrete inputs. -/
theorem C6_putManifest_nil_reader_panic_witness :
    calculateDigest (fun _ => "dd") [1, 2] ≠ getManifestRefKey "lib/alpine" "latest" ∧
    (putManifest (fun _ => "dd") emptyStore "lib/alpine" "latest" [1, 2] 7).1 =
      .error .panicNilReader ∧
    ((putManifest (fun _ => "dd") emptyStore "lib/alpine" "latest" [1, 2] 7).2).getMeta
      (getManifestRefKey "lib/alpine" "latest") = none ∧
    getManifest (putManifest (fun _ => "dd") emptyStore "lib/alpine" "latest" [1, 2] 7).2
      "lib/alpine" "latest" = .error .manifestRefNotFound :=
  ⟨by decide,
    C6_putManifest_nil_reader_panic (fun _ => "dd") "lib/alpine" "latest" [1, 2] 7
      (by decide)⟩

/-! ## C5 — digest promotion through the hash-computing layer -/

/-- **C5 (amended).** For every unresolved hash argument and every data,
the hash-computing Create streams the bytes to the temporary key
`"temp-" ++ uuid` while hashing and afterwards the returned meta (and
`GetMeta`) reports `hash = hex(sha256(data))`.  A second such Create with
identical data merges the caller's references into the existing
artifact's meta, but the temp artifact is disposed of through the
reference-counted Delete path only when the second call supplies *no*
references: then the temp blob is moved to trash.  When the second call
does supply references (the usual case), the sentinel-based cleanup
fails with ReferenceNotFound and the temp blob remains as an extra live
on-disk blob. -/
theorem C5_digest_promotion (hashHex : Bytes → String) (h₁ h₂ h₃ : String)
    (data : Bytes) (m1 m2 : ArtifactMeta) (r1 r2 : ArtifactReference)
    (uuid1 uuid2 uuid3 : String) (now1 now2 now3 : Int)
    (hu1 : isUnknownHash h₁ = true) (hu2 : isUnknownHash h₂ = true)
    (hu3 : isUnknownHash h₃ = true)
    (hne1 : hashHex data ≠ "temp-" ++ uuid1)
    (hne2 : hashHex data ≠ "temp-" ++ uuid2)
    (hne3 : hashHex data ≠ "temp-" ++ uuid3)
    (hm1 : m1.references = [r1]) (hm2 : m2.references = [r2])
    (hr2 : ¬(r2.name = "temp-cleanup" ∧ r2.repo = "temp-cleanup")) :
    -- first Create on a fresh store promotes temp → computed hash
    (∃ m : ArtifactMeta,
      (hcCreate hashHex emptyStore h₁ (some data) (data.length : Int)
          (some m1) uuid1 now1).1 = .ok m ∧
      m.hash = hashHex data ∧ m.length = (data.length : Int) ∧
      m.references = [r1]) ∧
    (((hcCreate hashHex emptyStore h₁ (some data) (data.length : Int)
        (some m1) uuid1 now1).2).getMeta (hashHex data)).map (fun m => m.hash) =
      some (hashHex data) ∧
    alookup ("temp-" ++ uuid1)
      (((hcCreate hashHex emptyStore h₁ (some data) (data.length : Int)
        (some m1) uuid1 now1).2)).blobs = none ∧
    -- second Create with references r2: merged, but the temp blob remains live
    (∃ m' : ArtifactMeta,
      (hcCreate hashHex
          ((hcCreate hashHex emptyStore h₁ (some data) (data.length : Int)
            (some m1) uuid1 now1).2)
          h₂ (some data) (data.length : Int) (some m2) uuid2 now2).1 = .ok m' ∧
      m'.hash = hashHex data ∧
      m'.references = mergeReferences [r1] [r2]) ∧
    alookup ("temp-" ++ uuid2)
      ((hcCreate hashHex
          ((hcCreate hashHex emptyStore h₁ (some data) (data.length : Int)
            (some m1) uuid1 now1).2)
          h₂ (some data) (data.length : Int) (some m2) uuid2 now2).2).blobs =
      some ⟨data, now2⟩ ∧
    -- second Create with no meta: temp blob is trashed via the Delete path
    alookup ("temp-" ++ uuid3)
      ((hcCreate hashHex
          ((hcCreate hashHex emptyStore h₁ (some data) (data.length : Int)
            (some m1) uuid1 now1).2)
          h₃ (some data) (data.length : Int) none uuid3 now3).2).blobs = none ∧
    alookup ("temp-" ++ uuid3)
      ((hcCreate hashHex
          ((hcCreate hashHex emptyStore h₁ (some data) (data.length : Int)
            (some m1) uuid1 now1).2)
          h₃ (some data) (data.length : Int) none uuid3 now3).2).trashBlobs =
      some ⟨data, now3⟩ := by
  have hu1' : ¬(¬isUnknownHash h₁ = true) := by simp [hu1]
  have hu2' : ¬(¬isUnknownHash h₂ = true) := by simp [hu2]
  have hu3' : ¬(¬isUnknownHash h₃ = true) := by simp [hu3]
  have hs1 : hcCreate hashHex emptyStore h₁ (some data) (data.length : Int)
      (some m1) uuid1 now1 =
      (.ok ⟨hashHex data, (data.length : Int),
          if m1.createdTimestamp = 0 then now1 else m1.createdTimestamp, [r1]⟩,
        ⟨[(hashHex data, ⟨data, now1⟩)],
          [(hashHex data, ⟨hashHex data, (data.length : Int),
            if m1.createdTimestamp = 0 then now1 else m1.createdTimestamp, [r1]⟩)],
          [], []⟩) := by
    simp [hcCreate, hu1, Store.create, emptyStore, Store.getMeta,
      moveToFinalHash, Store.move, Store.updateMeta, hm1,
      hne1, Ne.symm hne1, alookup, ainsert, aerase]
  refine ⟨⟨⟨hashHex data, (data.length : Int),
      if m1.createdTimestamp = 0 then now1 else m1.createdTimestamp, [r1]⟩,
      by rw [hs1], rfl, rfl, rfl⟩, ?_, ?_,
    ⟨⟨hashHex data, (data.length : Int),
      if m1.createdTimestamp = 0 then now1 else m1.createdTimestamp,
      mergeReferences [r1] [r2]⟩, ?_, rfl, rfl⟩, ?_, ?_, ?_⟩
  · rw [hs1]
    simp [Store.getMeta, alookup]
  · rw [hs1]
    simp [alookup, hne1, Ne.symm hne1]
  · rw [hs1]
    simp [hcCreate, hu2, Store.create, Store.getMeta, handleExistingHash,
      cleanupTempHash, Store.delete, Store.updateMeta, hm2, hr2,
      hne2, Ne.symm hne2, alookup, ainsert, aerase]
  · rw [hs1]
    simp [hcCreate, hu2, Store.create, Store.getMeta, handleExistingHash,
      cleanupTempHash, Store.delete, Store.updateMeta, hm2, hr2,
      hne2, Ne.symm hne2, alookup, ainsert, aerase]
  · rw [hs1]
    simp [hcCreate, hu3, Store.create, Store.getMeta, handleExistingHash,
      cleanupTempHash, Store.delete, Store.updateMeta, Store.moveToTrash,
      hne3, Ne.symm hne3, alookup, ainsert, aerase]
  · rw [hs1]
    simp [hcCreate, hu3, Store.create, Store.getMeta, handleExistingHash,
      cleanupTempHash, Store.delete, Store.updateMeta, Store.moveToTrash,
      hne3, Ne.symm hne3, alookup, ainsert, aerase]

/-- Witness for C5: both promotion paths evaluated at `data = [1]` with
the constant digest function `"ffff"` and explicit UUIDs. -/
theorem C5_digest_promotion_witness :
    isUnknownHash "" = true ∧
    ((fun (_ : Bytes) => "ffff") [1] : String) ≠ "temp-" ++ "u1" ∧
    ¬(("n2" : String) = "temp-cleanup" ∧ ("r2" : String) = "temp-cleanup") ∧
    (∃ m : ArtifactMeta,
      (hcCreate (fun _ => "ffff") emptyStore "" (some [1]) 1
          (some ⟨"x", 0, 0, [⟨"n1", "r1", 1⟩]⟩) "u1" 5).1 = .ok m ∧
      m.hash = "ffff" ∧ m.length = 1 ∧ m.references = [⟨"n1", "r1", 1⟩]) ∧
    alookup ("temp-" ++ "u2")
      ((hcCreate (fun _ => "ffff")
          ((hcCreate (fun _ => "ffff") emptyStore "" (some [1]) 1
            (some ⟨"x", 0, 0, [⟨"n1", "r1", 1⟩]⟩) "u1" 5).2)
          "" (some [1]) 1 (some ⟨"y", 0, 0, [⟨"n2", "r2", 2⟩]⟩) "u2" 6).2).blobs =
      some ⟨[1], 6⟩ ∧
    alookup ("temp-" ++ "u3")
      ((hcCreate (fun _ => "ffff")
          ((hcCreate (fun _ => "ffff") emptyStore "" (some [1]) 1
            (some ⟨"x", 0, 0, [⟨"n1", "r1", 1⟩]⟩) "u1" 5).2)
          "" (some [1]) 1 none "u3" 7).2).trashBlobs = some ⟨[1], 7⟩ := by
  obtain ⟨c1, c2, c3, c4, c5, c6, c7⟩ :=
    C5_digest_promotion (fun _ => "ffff") "" "" "" [1]
      ⟨"x", 0, 0, [⟨"n1", "r1", 1⟩]⟩ ⟨"y", 0, 0, [⟨"n2", "r2", 2⟩]⟩
      ⟨"n1", "r1", 1⟩ ⟨"n2", "r2", 2⟩ "u1" "u2" "u3" 5 6 7
      (by decide) (by decide) (by decide) (by decide) (by decide) (by decide)
      rfl rfl (by decide)
  exact ⟨by decide, by decide, by decide, c1, c5, c7⟩

/-- Counterexample to C5 as frozen: after a second unresolved-hash Create
with identical data `[1]` that supplies a reference, the temp blob
`temp-u2` is still present as a live on-disk blob (the sentinel-based
cleanup failed with ReferenceNotFound), contradicting "a second such
Create with identical data leaves no extra on-disk blob". -/
theorem C5_counterexample_temp_blob_remains :
    alookup "temp-u2"
      ((hcCreate (fun _ => "ffff")
          ((hcCreate (fun _ => "ffff") emptyStore "" (some [1]) 1
            (some ⟨"x", 0, 0, [⟨"n1", "r1", 1⟩]⟩) "u1" 5).2)
          "" (some [1]) 1 (some ⟨"y", 0, 0, [⟨"n2", "r2", 2⟩]⟩) "u2" 6).2).blobs =
      some ⟨[1], 6⟩ ∧
    ("temp-u2" : String) ≠ "ffff" := by
  exact ⟨by decide, by decide⟩

/-! ## mergeReferences: dedup-key theory -/

theorem refKey_update_ts (e : ArtifactReference) (t : Int) :
    refKey { e with referencedTimestamp := t } = refKey e := rfl

/-- The keys of `addRef acc r`: unchanged when the key is already present
(only a timestamp is updated), otherwise extended by `refKey r`. -/
theorem addRef_keys (acc : List ArtifactReference) (r : ArtifactReference) :
    (addRef acc r).map refKey =
      if acc.any (fun e => refKey e = refKey r) then acc.map refKey
      else acc.map refKey ++ [refKey r] := by
  unfold addRef
  split
  · rw [List.map_map]
    apply List.map_congr_left
    intro e _
    by_cases h : refKey e = refKey r ∧ r.referencedTimestamp > e.referencedTimestamp
    · simp only [Function.comp_apply, if_pos h]
      rfl
    · simp [Function.comp, h]
  · simp

theorem any_key_iff (acc : List ArtifactReference) (r : ArtifactReference) :
    acc.any (fun e => refKey e = refKey r) = true ↔ refKey r ∈ acc.map refKey := by
  simp [List.any_eq_true, List.mem_map]

theorem foldl_addRef_keys_nodup (l : List ArtifactReference) :
    ∀ acc : List ArtifactReference, (acc.map refKey).Nodup →
      ((l.foldl addRef acc).map refKey).Nodup := by
  induction l with
  | nil => intro acc h; exact h
  | cons r rest ih =>
    intro acc h
    refine ih (addRef acc r) ?_
    rw [addRef_keys]
    split
    · exact h
    · rw [List.nodup_append]
      refine ⟨h, List.nodup_singleton _, fun k hk => ?_⟩
      simp only [List.mem_singleton]
      intro hkr
      subst hkr
      rename_i hany
      rw [← any_key_iff acc r] at hk
      simp [hk] at hany

theorem dedupRefs_keys_nodup (l : List ArtifactReference) :
    ((dedupRefs l).map refKey).Nodup :=
  foldl_addRef_keys_nodup l [] (by simp)

theorem foldl_addRef_mem_keys (l : List ArtifactReference) :
    ∀ (acc : List ArtifactReference) (k : String),
      (k ∈ (l.foldl addRef acc).map refKey ↔ k ∈ acc.map refKey ∨ k ∈ l.map refKey) := by
  induction l with
  | nil => intro acc k; simp
  | cons r rest ih =>
    intro acc k
    rw [List.foldl_cons, ih]
    rw [addRef_keys]
    split
    · rename_i hany
      rw [any_key_iff] at hany
      simp only [List.map_cons, List.mem_cons]
      constructor
      · rintro (h | h)
        · exact Or.inl h
        · exact Or.inr (Or.inr h)
      · rintro (h | h | h)
        · exact Or.inl h
        · exact Or.inl (h ▸ hany)
        · exact Or.inr h
    · simp only [List.mem_append, List.mem_singleton, List.map_cons, List.mem_cons]
      tauto

theorem dedupRefs_mem_keys (l : List ArtifactReference) (k : String) :
    k ∈ (dedupRefs l).map refKey ↔ k ∈ l.map refKey := by
  rw [dedupRefs, foldl_addRef_mem_keys]
  simp

/-- A list whose keys are already pairwise distinct is left unchanged by
the dedup loop. -/
theorem foldl_addRef_of_nodup (l : List ArtifactReference) :
    ∀ acc : List ArtifactReference, (((acc ++ l).map refKey)).Nodup →
      l.foldl addRef acc = acc ++ l := by
  induction l with
  | nil => intro acc _; simp
  | cons r rest ih =>
    intro acc h
    have hknotin : refKey r ∉ acc.map refKey := by
      rw [List.map_append, List.nodup_append] at h
      intro hmem
      exact h.2.2 hmem (by simp)
    have hany : ¬acc.any (fun e => refKey e = refKey r) = true := by
      rw [any_key_iff]; exact hknotin
    rw [List.foldl_cons]
    have haddr : addRef acc r = acc ++ [r] := by
      unfold addRef
      rw [if_neg (by simpa using hany)]
    rw [haddr, ih (acc ++ [r]) (by simpa using h)]
    simp

theorem dedupRefs_of_nodup (l : List ArtifactReference)
    (h : (l.map refKey).Nodup) : dedupRefs l = l :=
  (foldl_addRef_of_nodup l [] (by simpa using h)).trans (by simp)

theorem mergeReferences_eq_foldl (e n : List ArtifactReference) :
    mergeReferences e n = n.foldl addRef (dedupRefs e) := by
  rw [mergeReferences, dedupRefs, List.foldl_append]

/-- Re-merging from an already deduplicated accumulator is the same as
deduplicating the concatenation. -/
theorem mergeReferences_dedup (e n : List ArtifactReference) :
    mergeReferences (dedupRefs e) n = dedupRefs (e ++ n) := by
  rw [mergeReferences_eq_foldl, dedupRefs_of_nodup (dedupRefs e) (dedupRefs_keys_nodup e),
    dedupRefs, dedupRefs, List.foldl_append]

/-! ### Timestamp maxima -/

theorem le_foldl_max_init (ts : List Int) : ∀ t : Int, t ≤ ts.foldl max t := by
  induction ts with
  | nil => intro t; exact le_refl t
  | cons b rest ih =>
    intro t
    calc t ≤ max t b := le_max_left t b
    _ ≤ rest.foldl max (max t b) := ih (max t b)

theorem le_foldl_max_mem (ts : List Int) :
    ∀ (t a : Int), a ∈ ts → a ≤ ts.foldl max t := by
  induction ts with
  | nil => intro t a h; cases h
  | cons b rest ih =>
    intro t a h
    rcases List.mem_cons.mp h with h | h
    · subst h
      calc a ≤ max t a := le_max_right t a
      _ ≤ rest.foldl max (max t a) := le_foldl_max_init rest (max t a)
    · exact ih (max t b) a h

theorem mem_le_tsListMax (xs : List Int) (a b : Int)
    (ha : a ∈ xs) (hb : tsListMax xs = some b) : a ≤ b := by
  cases xs with
  | nil => cases ha
  | cons x t =>
    simp only [tsListMax, Option.some_inj] at hb
    subst hb
    rcases List.mem_cons.mp ha with h | h
    · subst h; exact le_foldl_max_init t a
    · exact le_foldl_max_mem t x a h

theorem tsListMax_snoc (xs : List Int) (a : Int) :
    tsListMax (xs ++ [a]) =
      some (match tsListMax xs with | none => a | some b => max b a) := by
  cases xs with
  | nil => rfl
  | cons x t =>
    simp only [tsListMax, List.cons_append, List.foldl_append, List.foldl_cons,
      List.foldl_nil]

theorem maxTs_none_of_not_mem (l : List ArtifactReference) (k : String)
    (h : k ∉ l.map refKey) : maxTs l k = none := by
  have hfil : l.filter (fun r => refKey r = k) = [] := by
    rw [List.filter_eq_nil_iff]
    intro r hr
    simp only [decide_eq_true_eq]
    intro hk
    exact h (hk ▸ List.mem_map_of_mem refKey hr)
  rw [maxTs, hfil]
  rfl

theorem maxTs_snoc (l : List ArtifactReference) (r : ArtifactReference) (k : String) :
    maxTs (l ++ [r]) k =
      if refKey r = k then
        (match maxTs l k with
         | none => some r.referencedTimestamp
         | some b => some (max b r.referencedTimestamp))
      else maxTs l k := by
  rw [maxTs, List.filter_append]
  by_cases hk : refKey r = k
  · rw [if_pos hk]
    have : List.filter (fun x => decide (refKey x = k)) [r] = [r] := by simp [hk]
    rw [this, List.map_append]
    simp only [List.map_cons, List.map_nil]
    rw [tsListMax_snoc, maxTs]
    cases tsListMax ((l.filter (fun x => refKey x = k)).map
      (fun x => x.referencedTimestamp)) <;> rfl
  · rw [if_neg hk]
    have : List.filter (fun x => decide (refKey x = k)) [r] = [] := by simp [hk]
    rw [this, List.append_nil, maxTs]

theorem dedupRefs_snoc (l : List ArtifactReference) (r : ArtifactReference) :
    dedupRefs (l ++ [r]) = addRef (dedupRefs l) r := by
  rw [dedupRefs, List.foldl_append, List.foldl_cons, List.foldl_nil, dedupRefs]

/-- Every entry of the deduplicated list carries the maximum timestamp
supplied for its key. -/
theorem dedupRefs_ts (l : List ArtifactReference) :
    ∀ x ∈ dedupRefs l, maxTs l (refKey x) = some x.referencedTimestamp := by
  induction l using List.reverseRecOn with
  | nil => intro x hx; cases hx
  | append_singleton l r ih =>
    intro x hx
    rw [dedupRefs_snoc] at hx
    rw [maxTs_snoc]
    unfold addRef at hx
    split at hx
    · rename_i hany
      obtain ⟨y, hy, hfy⟩ := List.mem_map.mp hx
      by_cases hkey : refKey y = refKey r
      · have hkx : refKey x = refKey r := by
          rw [← hfy]
          split <;> exact hkey
        have hts : x.referencedTimestamp =
            max y.referencedTimestamp r.referencedTimestamp := by
          rw [← hfy]
          by_cases hgt : r.referencedTimestamp > y.referencedTimestamp
          · rw [if_pos ⟨hkey, hgt⟩]
            show r.referencedTimestamp = _
            omega
          · rw [if_neg (by tauto)]
            omega
        rw [if_pos hkx.symm, hkx, ← hkey, ih y hy, hts]
      · have hfx : x = y := by
          rw [← hfy]
          exact if_neg (by tauto)
        subst hfx
        rw [if_neg (fun h => hkey (h.symm)), ih x hy]
    · rename_i hany
      rcases List.mem_append.mp hx with h | h
      · have hkx : refKey x ≠ refKey r := by
          intro hk
          apply hany
          rw [any_key_iff, ← hk]
          exact List.mem_map_of_mem refKey h
        rw [if_neg (fun hc => hkx hc.symm)]
        exact ih x h
      · rw [List.mem_singleton] at h
        subst h
        rw [if_pos rfl]
        have hnm : refKey x ∉ l.map refKey := by
          intro hmem
          apply hany
          rw [any_key_iff, dedupRefs_mem_keys]
          exact hmem
        rw [maxTs_none_of_not_mem l _ hnm]

/-- `mergeReferences` gives each surviving entry the maximum timestamp
supplied for its key across both inputs. -/
theorem mergeReferences_ts (e n : List ArtifactReference) :
    ∀ x ∈ mergeReferences e n,
      maxTs (e ++ n) (refKey x) = some x.referencedTimestamp :=
  dedupRefs_ts (e ++ n)

/-- Per-key timestamps never decrease across a merge. -/
theorem mergeReferences_mono (e n : List ArtifactReference) :
    ∀ y ∈ mergeReferences e n, ∀ x ∈ e, refKey x = refKey y →
      x.referencedTimestamp ≤ y.referencedTimestamp := by
  intro y hy x hx hkey
  have hts := mergeReferences_ts e n y hy
  refine mem_le_tsListMax _ _ _ ?_ hts
  refine List.mem_map_of_mem _ ?_
  rw [List.mem_filter]
  exact ⟨List.mem_append_left n hx, by simp [hkey]⟩

/-! ### Create sequences -/

theorem dedupRefs_append_foldl (a y : List ArtifactReference) :
    dedupRefs (a ++ y) = y.foldl addRef (dedupRefs a) := by
  rw [dedupRefs, List.foldl_append, dedupRefs]

theorem dedupRefs_dedupRefs_append (x y : List ArtifactReference) :
    dedupRefs (dedupRefs x ++ y) = dedupRefs (x ++ y) := by
  rw [dedupRefs_append_foldl, dedupRefs_of_nodup (dedupRefs x) (dedupRefs_keys_nodup x),
    dedupRefs_append_foldl]

/-- Folding `mergeReferences` over at least one batch of new references
equals deduplicating the concatenation of everything. -/
theorem foldl_merge_eq_dedup (ns : List (List ArtifactReference)) :
    ∀ acc : List ArtifactReference, ns ≠ [] →
      ns.foldl mergeReferences acc = dedupRefs (acc ++ ns.flatten) := by
  induction ns with
  | nil => intro acc h; exact absurd rfl h
  | cons n rest ih =>
    intro acc _
    rw [List.foldl_cons]
    cases hrest : rest with
    | nil =>
      subst hrest
      simp only [List.foldl_nil, List.flatten_cons, List.flatten_nil, List.append_nil]
      rfl
    | cons r rs =>
      rw [← hrest, ih (mergeReferences acc n) (by simp [hrest])]
      have hm : mergeReferences acc n = dedupRefs (acc ++ n) := rfl
      rw [hm, dedupRefs_dedupRefs_append]
      simp [List.append_assoc]

/-- Invariant of a Create sequence against an already-stored artifact:
every call merges and returns the stored hash and length, the blob is
never rewritten, and the final reference list is the fold of
`mergeReferences` over the supplied batches. -/
theorem createSeq_existing (hash : String) (data : Bytes) (now : Int) :
    ∀ (metas : List ArtifactMeta) (s : Store) (m0 : ArtifactMeta) (b : Blob),
      alookup hash s.blobs = some b →
      s.getMeta hash = some m0 →
      m0.hash = hash → m0.length = (data.length : Int) →
      (∀ m ∈ metas, m.references ≠ []) →
      (∀ r ∈ (createSeq hash data now s metas).2, ∃ mm, r = .ok mm ∧
        mm.hash = hash ∧ mm.length = (data.length : Int)) ∧
      alookup hash ((createSeq hash data now s metas).1).blobs = some b ∧
      ∃ mf, ((createSeq hash data now s metas).1).getMeta hash = some mf ∧
        mf.hash = hash ∧ mf.length = (data.length : Int) ∧
        mf.references =
          (metas.map (fun m => m.references)).foldl mergeReferences m0.references := by
  intro metas
  induction metas with
  | nil =>
    intro s m0 b hb hm0 hh hl _
    refine ⟨?_, hb, m0, hm0, hh, hl, rfl⟩
    intro r hr
    simp [createSeq] at hr
  | cons m ms ih =>
    intro s m0 b hb hm0 hh hl hrefs
    have hm0' : alookup hash s.metas = some m0 := hm0
    have hnc : ¬((data.length : Int) ≠ -1 ∧ (data.length : Int) ≠ m0.length) := by
      simp [hl]
    have hmr : m.references ≠ [] := hrefs m (by simp)
    have hc : s.create hash (some data) (data.length : Int) (some m) now =
        (.ok ({ m0 with references := mergeReferences m0.references m.references }),
          ({ s with
              metas := ainsert hash ({ m0 with references := mergeReferences m0.references m.references }) s.metas }),
          []) := by
      simp [Store.create, hb, hm0', hl, hmr]
    obtain ⟨ihres, ihb, mf, ihmf, ihh, ihl, ihrefs⟩ :=
      ih ({ s with
            metas := ainsert hash ({ m0 with references := mergeReferences m0.references m.references }) s.metas })
        ({ m0 with references := mergeReferences m0.references m.references }) b hb
        (by simp [Store.getMeta]) hh hl (fun mm hmm => hrefs mm (by simp [hmm]))
    refine ⟨?_, ?_, mf, ?_, ihh, ihl, ?_⟩
    · intro r hr
      simp only [createSeq, hc] at hr
      rcases List.mem_cons.mp hr with h | h
      · exact ⟨_, h, hh, hl⟩
      · exact ihres r h
    · simp only [createSeq, hc]
      exact ihb
    · simp only [createSeq, hc]
      exact ihmf
    · rw [ihrefs]
      simp

/-! ## C4 — idempotent create and reference merging -/

/-- **C4 (amended).** Reference merging is a set union under the *joined*
`name + ":" + repo` key (not the `(name, repo)` pair: a name containing
`':'` can collide with a different pair) with timestamps taken to the
maximum.  For every sequence of `Create(H, data, len(data), meta_i)`
calls, each supplying at least one reference, every call returns the same
`meta.hash` and `length`; once at least one merge has happened (two or
more calls) the final reference list contains exactly one entry per
distinct joined key among all supplied references, whose timestamp is the
maximum supplied for that key; a single call stores its reference list
verbatim; and per-key timestamps are monotonically non-decreasing across
merges. -/
theorem C4_idempotent_create (hash : String) (data : Bytes) (now : Int)
    (metas : List ArtifactMeta) (hne : metas ≠ [])
    (hrefs : ∀ m ∈ metas, m.references ≠ []) :
    (∀ r ∈ (createSeq hash data now emptyStore metas).2,
      ∃ mm : ArtifactMeta, r = .ok mm ∧ mm.hash = hash ∧
        mm.length = (data.length : Int)) ∧
    (∃ mf : ArtifactMeta,
      ((createSeq hash data now emptyStore metas).1).getMeta hash = some mf ∧
      mf.hash = hash ∧ mf.length = (data.length : Int) ∧
      (2 ≤ metas.length →
        (mf.references.map refKey).Nodup ∧
        (∀ k : String, k ∈ mf.references.map refKey ↔
          k ∈ ((metas.map (fun m => m.references)).flatten).map refKey) ∧
        (∀ x ∈ mf.references,
          maxTs ((metas.map (fun m => m.references)).flatten) (refKey x) =
            some x.referencedTimestamp)) ∧
      (metas.length = 1 →
        mf.references = (metas.map (fun m => m.references)).flatten)) ∧
    (∀ e n : List ArtifactReference, ∀ y ∈ mergeReferences e n, ∀ x ∈ e,
      refKey x = refKey y → x.referencedTimestamp ≤ y.referencedTimestamp) := by
  obtain ⟨m₁, rest, rfl⟩ : ∃ m₁ rest, metas = m₁ :: rest := by
    cases metas with
    | nil => exact absurd rfl hne
    | cons a l => exact ⟨a, l, rfl⟩
  have h1 : emptyStore.create hash (some data) (data.length : Int) (some m₁) now =
      (.ok ⟨hash, (data.length : Int),
          (if m₁.createdTimestamp = 0 then now else m₁.createdTimestamp),
          m₁.references⟩,
        ⟨[(hash, ⟨data, now⟩)],
          [(hash, ⟨hash, (data.length : Int),
            (if m₁.createdTimestamp = 0 then now else m₁.createdTimestamp),
            m₁.references⟩)], [], []⟩,
        data) := by
    simp [Store.create, emptyStore, ainsert]
  have hseq : createSeq hash data now emptyStore (m₁ :: rest) =
      ((createSeq hash data now
          ⟨[(hash, ⟨data, now⟩)],
            [(hash, ⟨hash, (data.length : Int),
              (if m₁.createdTimestamp = 0 then now else m₁.createdTimestamp),
              m₁.references⟩)], [], []⟩ rest).1,
        .ok ⟨hash, (data.length : Int),
            (if m₁.createdTimestamp = 0 then now else m₁.createdTimestamp),
            m₁.references⟩ ::
          (createSeq hash data now
            ⟨[(hash, ⟨data, now⟩)],
              [(hash, ⟨hash, (data.length : Int),
                (if m₁.createdTimestamp = 0 then now else m₁.createdTimestamp),
                m₁.references⟩)], [], []⟩ rest).2) := by
    simp [createSeq, h1]
  obtain ⟨ihres, ihb, mf, ihmf, ihh, ihl, ihrefs⟩ :=
    createSeq_existing hash data now rest
      ⟨[(hash, ⟨data, now⟩)],
        [(hash, ⟨hash, (data.length : Int),
          (if m₁.createdTimestamp = 0 then now else m₁.createdTimestamp),
          m₁.references⟩)], [], []⟩
      ⟨hash, (data.length : Int),
        (if m₁.createdTimestamp = 0 then now else m₁.createdTimestamp),
        m₁.references⟩
      ⟨data, now⟩ (by simp [alookup]) (by simp [Store.getMeta, alookup]) rfl rfl
      (fun mm hmm => hrefs mm (by simp [hmm]))
  refine ⟨?_, ⟨mf, ?_, ihh, ihl, ?_, ?_⟩, mergeReferences_mono⟩
  · rw [hseq]
    intro r hr
    rcases List.mem_cons.mp hr with h | h
    · exact ⟨_, h, rfl, rfl⟩
    · exact ihres r h
  · rw [hseq]
    exact ihmf
  · intro hlen2
    have hrest : rest ≠ [] := by
      cases rest with
      | nil => simp at hlen2
      | cons a l => simp
    have hmap : rest.map (fun m => m.references) ≠ [] := by
      cases rest with
      | nil => exact absurd rfl hrest
      | cons a l => simp
    have hflat : m₁.references ++ (rest.map (fun m => m.references)).flatten =
        ((m₁ :: rest).map (fun m => m.references)).flatten := by
      simp
    have hd : mf.references =
        dedupRefs (((m₁ :: rest).map (fun m => m.references)).flatten) := by
      rw [ihrefs]
      show (rest.map (fun m => m.references)).foldl mergeReferences m₁.references = _
      rw [foldl_merge_eq_dedup (rest.map (fun m => m.references)) m₁.references hmap,
        hflat]
    refine ⟨?_, ?_, ?_⟩
    · rw [hd]
      exact dedupRefs_keys_nodup _
    · intro k
      rw [hd]
      exact dedupRefs_mem_keys _ k
    · intro x hx
      rw [hd] at hx
      exact dedupRefs_ts _ x hx
  · intro hlen1
    have hrest : rest = [] := by
      cases rest with
      | nil => rfl
      | cons a l => simp at hlen1
    subst hrest
    rw [ihrefs]
    simp

/-- Witness for C4: two Creates, the second repeating `(n1, r1)` with a
newer timestamp and adding `(n2, r2)`. -/
theorem C4_idempotent_create_witness :
    ([⟨"", 0, 0, [⟨"n1", "r1", 1⟩]⟩,
      ⟨"", 0, 0, [⟨"n1", "r1", 5⟩, ⟨"n2", "r2", 2⟩]⟩] : List ArtifactMeta) ≠ [] ∧
    (∀ m ∈ ([⟨"", 0, 0, [⟨"n1", "r1", 1⟩]⟩,
      ⟨"", 0, 0, [⟨"n1", "r1", 5⟩, ⟨"n2", "r2", 2⟩]⟩] : List ArtifactMeta),
      m.references ≠ []) ∧
    ((∀ r ∈ (createSeq "abcd" [1] 9 emptyStore
        [⟨"", 0, 0, [⟨"n1", "r1", 1⟩]⟩,
         ⟨"", 0, 0, [⟨"n1", "r1", 5⟩, ⟨"n2", "r2", 2⟩]⟩]).2,
      ∃ mm : ArtifactMeta, r = .ok mm ∧ mm.hash = "abcd" ∧
        mm.length = (([1] : Bytes).length : Int)) ∧
    (∃ mf : ArtifactMeta,
      ((createSeq "abcd" [1] 9 emptyStore
        [⟨"", 0, 0, [⟨"n1", "r1", 1⟩]⟩,
         ⟨"", 0, 0, [⟨"n1", "r1", 5⟩, ⟨"n2", "r2", 2⟩]⟩]).1).getMeta "abcd" = some mf ∧
      mf.hash = "abcd" ∧ mf.length = (([1] : Bytes).length : Int) ∧
      (2 ≤ ([⟨"", 0, 0, [⟨"n1", "r1", 1⟩]⟩,
         ⟨"", 0, 0, [⟨"n1", "r1", 5⟩, ⟨"n2", "r2", 2⟩]⟩] : List ArtifactMeta).length →
        (mf.references.map refKey).Nodup ∧
        (∀ k : String, k ∈ mf.references.map refKey ↔
          k ∈ ((([⟨"", 0, 0, [⟨"n1", "r1", 1⟩]⟩,
            ⟨"", 0, 0, [⟨"n1", "r1", 5⟩, ⟨"n2", "r2", 2⟩]⟩] : List ArtifactMeta).map
              (fun m => m.references)).flatten).map refKey) ∧
        (∀ x ∈ mf.references,
          maxTs ((([⟨"", 0, 0, [⟨"n1", "r1", 1⟩]⟩,
            ⟨"", 0, 0, [⟨"n1", "r1", 5⟩, ⟨"n2", "r2", 2⟩]⟩] : List ArtifactMeta).map
              (fun m => m.references)).flatten) (refKey x) =
            some x.referencedTimestamp)) ∧
      (([⟨"", 0, 0, [⟨"n1", "r1", 1⟩]⟩,
         ⟨"", 0, 0, [⟨"n1", "r1", 5⟩, ⟨"n2", "r2", 2⟩]⟩] : List ArtifactMeta).length = 1 →
        mf.references = (([⟨"", 0, 0, [⟨"n1", "r1", 1⟩]⟩,
          ⟨"", 0, 0, [⟨"n1", "r1", 5⟩, ⟨"n2", "r2", 2⟩]⟩] : List ArtifactMeta).map
            (fun m => m.references)).flatten)) ∧
    (∀ e n : List ArtifactReference, ∀ y ∈ mergeReferences e n, ∀ x ∈ e,
      refKey x = refKey y → x.referencedTimestamp ≤ y.referencedTimestamp)) :=
  ⟨by decide, by decide,
    C4_idempotent_create "abcd" [1] 9
      [⟨"", 0, 0, [⟨"n1", "r1", 1⟩]⟩,
       ⟨"", 0, 0, [⟨"n1", "r1", 5⟩, ⟨"n2", "r2", 2⟩]⟩]
      (by decide) (by decide)⟩

/-- Counterexample to C4 as frozen: merging dedups by the joined
`name:repo` string, so the *distinct* pairs `("a:b", "c")` and
`("a", "b:c")` collapse into a single entry — the final list does not
contain one entry per distinct `(name, repo)` pair. -/
theorem C4_counterexample_joined_key_collision :
    (((createSeq "abcd" [1] 9 emptyStore
        [⟨"", 0, 0, [⟨"a:b", "c", 1⟩]⟩,
         ⟨"", 0, 0, [⟨"a", "b:c", 2⟩]⟩]).1).getMeta "abcd").map
      (fun m => m.references) = some [⟨"a:b", "c", 2⟩] ∧
    ¬((("a:b" : String), ("c" : String)) = (("a" : String), ("b:c" : String))) :=
  ⟨by decide, by decide⟩

/-! ## Delete semantics -/

theorem pair_match_imp_key (e r : ArtifactReference)
    (h : e.name = r.name ∧ e.repo = r.repo) : refKey e = refKey r := by
  rw [refKey, refKey, h.1, h.2]

/-- Deleting the head of a reference list with pairwise-distinct keys
removes exactly the head. -/
theorem filter_not_match_head (r : ArtifactReference) (rest : List ArtifactReference)
    (hnd : (((r :: rest).map refKey)).Nodup) :
    (r :: rest).filter (fun e => ¬(e.name = r.name ∧ e.repo = r.repo)) = rest := by
  rw [List.filter_cons]
  have hself : ¬decide (¬(r.name = r.name ∧ r.repo = r.repo)) = true := by simp
  rw [if_neg hself]
  apply List.filter_eq_self.mpr
  intro e he
  simp only [decide_eq_true_eq]
  intro hmatch
  have hkey := pair_match_imp_key e r hmatch
  rw [List.map_cons, List.nodup_cons] at hnd
  exact hnd.1 (hkey ▸ List.mem_map_of_mem refKey he)

/-- One Delete step over a reference list headed by the deleted
reference: trashes if that was the last reference, otherwise rewrites
the meta with the tail. -/
theorem delete_head_step (s : Store) (hash : String) (m : ArtifactMeta)
    (r : ArtifactReference) (rest : List ArtifactReference)
    (hm : s.getMeta hash = some m) (hrefs : m.references = r :: rest)
    (hnd : (((r :: rest).map refKey)).Nodup) :
    s.delete hash r =
      (if rest = [] then (.ok none, s.moveToTrash hash)
       else (.ok (some { m with references := rest }),
         { s with metas := ainsert hash ({ m with references := rest }) s.metas })) := by
  have hm' : alookup hash s.metas = some m := hm
  have hfound : (r :: rest).any (fun e => e.name = r.name ∧ e.repo = r.repo) = true := by
    simp
  have hfil := filter_not_match_head r rest hnd
  by_cases hrestne : rest = []
  · subst hrestne
    rw [if_pos rfl]
    simp [Store.delete, hm', hrefs, hfil]
  · rw [if_neg hrestne]
    simp only [Store.delete, hm', hrefs]
    rw [hfil]
    simp only [hfound]
    rw [if_neg (by simp), if_neg (by simp [hrestne])]


/-- Invariant of a Delete sequence that walks a distinct-key reference
list front to back: every step succeeds, step `i` leaves exactly the
references after position `i`, the last step returns `nil`, and the
artifact ends up in trash, invisible to GetMeta and lookups. -/
theorem deleteSeq_invariant (hash : String) :
    ∀ (refs : List ArtifactReference) (s : Store) (m : ArtifactMeta) (b : Blob),
      refs ≠ [] →
      ((refs.map refKey)).Nodup →
      s.getMeta hash = some m →
      m.references = refs →
      alookup hash s.blobs = some b →
      (deleteSeq hash s refs).2.length = refs.length ∧
      (∀ i : Nat, i + 1 < refs.length →
        (deleteSeq hash s refs).2.get? i =
          some (.ok (some { m with references := refs.drop (i + 1) }))) ∧
      (deleteSeq hash s refs).2.get? (refs.length - 1) = some (.ok none) ∧
      ((deleteSeq hash s refs).1).getMeta hash = none ∧
      alookup hash ((deleteSeq hash s refs).1).blobs = none ∧
      alookup hash ((deleteSeq hash s refs).1).trashBlobs = some b := by
  intro refs
  induction refs with
  | nil => intro s m b hne; exact absurd rfl hne
  | cons r rest ih =>
    intro s m b _ hnd hm hrefs hb
    have hm' : alookup hash s.metas = some m := hm
    have hstep := delete_head_step s hash m r rest hm hrefs hnd
    by_cases hrestne : rest = []
    · subst hrestne
      rw [if_pos rfl] at hstep
      have hseq : deleteSeq hash s [r] = ((s.moveToTrash hash), [.ok none]) := by
        simp [deleteSeq, hstep]
      rw [hseq]
      have htrash : (s.moveToTrash hash).getMeta hash = none ∧
          alookup hash (s.moveToTrash hash).blobs = none ∧
          alookup hash (s.moveToTrash hash).trashBlobs = some b := by
        refine ⟨?_, ?_, ?_⟩ <;> simp [Store.moveToTrash, hb, hm', Store.getMeta]
      exact ⟨rfl, fun i hi => by simp at hi, rfl, htrash.1, htrash.2.1, htrash.2.2⟩
    · rw [if_neg hrestne] at hstep
      have hseq : deleteSeq hash s (r :: rest) =
          ((deleteSeq hash
              ({ s with metas := ainsert hash ({ m with references := rest }) s.metas })
              rest).1,
            .ok (some { m with references := rest }) ::
              (deleteSeq hash
                ({ s with metas := ainsert hash ({ m with references := rest }) s.metas })
                rest).2) := by
        simp [deleteSeq, hstep]
      obtain ⟨ihlen, ihidx, ihlast, ihmeta, ihblob, ihtrash⟩ :=
        ih ({ s with metas := ainsert hash ({ m with references := rest }) s.metas })
          ({ m with references := rest }) b hrestne
          (by rw [List.map_cons, List.nodup_cons] at hnd; exact hnd.2)
          (by simp [Store.getMeta]) rfl hb
      rw [hseq]
      refine ⟨by simp [ihlen], ?_, ?_, ihmeta, ihblob, ihtrash⟩
      · intro i hi
        cases i with
        | zero => rfl
        | succ j =>
          have hj : j + 1 < rest.length := by
            simp only [List.length_cons] at hi
            omega
          rw [List.get?_cons_succ, ihidx j hj]
          rfl
      · have hlen : (r :: rest).length - 1 = rest.length := by simp
        rw [hlen]
        have hlentail : rest.length = (rest.length - 1) + 1 := by
          cases rest with
          | nil => exact absurd rfl hrestne
          | cons x y => simp
        rw [hlentail, List.get?_cons_succ]
        exact ihlast

theorem flatten_map_singleton {α : Type} (l : List α) :
    ((l.map (fun x => [x])).flatten) = l := by
  induction l with
  | nil => rfl
  | cons a t ih => simp [ih]

/-! ## C3 — Delete semantics and reference counting -/

/-- **C3 (amended).** `Delete(H, ref)` fails with a ReferenceNotFound
error when no stored reference matches `(ref.name, ref.repo)`; when
matching references are removed and some remain it rewrites the meta and
returns the updated meta; when the last reference is removed it moves
blob and meta to the trash layout and returns `nil`, after which GetMeta
and Read fail as not found.  After `N` Creates supplying `N` references
with pairwise-distinct joined `name:repo` keys (references that are
distinct only as `(name, repo)` pairs can collapse during the merge),
exactly `N` matching Deletes trash the blob: the `(N−1)`th returns
non-nil meta with one remaining reference and the `N`th returns `nil`. -/
theorem C3_delete_semantics :
    (∀ (s : Store) (hash : String) (ref : ArtifactReference) (m : ArtifactMeta),
      s.getMeta hash = some m →
      (∀ x ∈ m.references, ¬(x.name = ref.name ∧ x.repo = ref.repo)) →
      s.delete hash ref = (.error (.referenceNotFound ref.name ref.repo hash), s)) ∧
    (∀ (s : Store) (hash : String) (ref : ArtifactReference) (m : ArtifactMeta),
      s.getMeta hash = some m →
      (∃ x ∈ m.references, x.name = ref.name ∧ x.repo = ref.repo) →
      m.references.filter (fun e => ¬(e.name = ref.name ∧ e.repo = ref.repo)) ≠ [] →
      (s.delete hash ref).1 = .ok (some ({ m with
        references := m.references.filter (fun e => ¬(e.name = ref.name ∧ e.repo = ref.repo)) })) ∧
      ((s.delete hash ref).2).getMeta hash = some ({ m with
        references := m.references.filter (fun e => ¬(e.name = ref.name ∧ e.repo = ref.repo)) })) ∧
    (∀ (s : Store) (hash : String) (ref : ArtifactReference) (m : ArtifactMeta) (b : Blob),
      s.getMeta hash = some m → alookup hash s.blobs = some b →
      (∃ x ∈ m.references, x.name = ref.name ∧ x.repo = ref.repo) →
      m.references.filter (fun e => ¬(e.name = ref.name ∧ e.repo = ref.repo)) = [] →
      (s.delete hash ref).1 = .ok none ∧
      ((s.delete hash ref).2).getMeta hash = none ∧
      (∀ off len : Int,
        ((s.delete hash ref).2).read hash off len = .error (.notFound hash)) ∧
      alookup hash ((s.delete hash ref).2).blobs = none ∧
      alookup hash ((s.delete hash ref).2).trashBlobs = some b) ∧
    (∀ (hash : String) (data : Bytes) (now : Int) (refs : List ArtifactReference),
      refs ≠ [] → ((refs.map refKey)).Nodup →
      (deleteSeq hash ((createSeq hash data now emptyStore
          (refs.map (fun rr => ⟨hash, 0, 1, [rr]⟩))).1) refs).2.length = refs.length ∧
      (2 ≤ refs.length →
        ∃ mprev : ArtifactMeta,
          (deleteSeq hash ((createSeq hash data now emptyStore
              (refs.map (fun rr => ⟨hash, 0, 1, [rr]⟩))).1) refs).2.get?
            (refs.length - 2) = some (.ok (some mprev)) ∧
          mprev.references.length = 1) ∧
      (deleteSeq hash ((createSeq hash data now emptyStore
          (refs.map (fun rr => ⟨hash, 0, 1, [rr]⟩))).1) refs).2.get?
        (refs.length - 1) = some (.ok none) ∧
      ((deleteSeq hash ((createSeq hash data now emptyStore
          (refs.map (fun rr => ⟨hash, 0, 1, [rr]⟩))).1) refs).1).getMeta hash = none ∧
      (∀ off len : Int,
        ((deleteSeq hash ((createSeq hash data now emptyStore
          (refs.map (fun rr => ⟨hash, 0, 1, [rr]⟩))).1) refs).1).read hash off len =
          .error (.notFound hash)) ∧
      alookup hash ((deleteSeq hash ((createSeq hash data now emptyStore
          (refs.map (fun rr => ⟨hash, 0, 1, [rr]⟩))).1) refs).1).trashBlobs =
        some ⟨data, now⟩) := by
  refine ⟨?_, ?_, ?_, ?_⟩
  · -- ReferenceNotFound when nothing matches
    intro s hash ref m hm hnone
    have hm' : alookup hash s.metas = some m := hm
    have hany : m.references.any
        (fun e => e.name = ref.name ∧ e.repo = ref.repo) = false := by
      rw [List.any_eq_false]
      intro x hx
      simpa using hnone x hx
    simp only [Store.delete, hm']
    rw [if_pos (by rw [hany]; simp)]
  · -- some references remain: meta rewritten and returned
    intro s hash ref m hm hex hfilne
    have hm' : alookup hash s.metas = some m := hm
    have hany : m.references.any
        (fun e => e.name = ref.name ∧ e.repo = ref.repo) = true := by
      rw [List.any_eq_true]
      obtain ⟨x, hx, hmatch⟩ := hex
      exact ⟨x, hx, by simpa using hmatch⟩
    have hdel : s.delete hash ref =
        (.ok (some ({ m with
            references := m.references.filter (fun e => ¬(e.name = ref.name ∧ e.repo = ref.repo)) })),
          { s with metas := ainsert hash ({ m with
            references := m.references.filter (fun e => ¬(e.name = ref.name ∧ e.repo = ref.repo)) }) s.metas }) := by
      simp only [Store.delete, hm']
      rw [if_neg (by rw [hany]; simp), if_neg hfilne]
    rw [hdel]
    exact ⟨rfl, by simp [Store.getMeta]⟩
  · -- last reference removed: artifact trashed and invisible
    intro s hash ref m b hm hb hex hfil
    have hm' : alookup hash s.metas = some m := hm
    have hany : m.references.any
        (fun e => e.name = ref.name ∧ e.repo = ref.repo) = true := by
      rw [List.any_eq_true]
      obtain ⟨x, hx, hmatch⟩ := hex
      exact ⟨x, hx, by simpa using hmatch⟩
    have hdel : s.delete hash ref = (.ok none, s.moveToTrash hash) := by
      simp only [Store.delete, hm']
      rw [if_neg (by rw [hany]; simp), if_pos hfil]
    rw [hdel]
    have hblobs : alookup hash (s.moveToTrash hash).blobs = none := by
      simp [Store.moveToTrash, hb, hm']
    refine ⟨rfl, ?_, ?_, hblobs, ?_⟩
    · simp [Store.moveToTrash, hb, hm', Store.getMeta]
    · intro off len
      simp [Store.read, hblobs]
    · simp [Store.moveToTrash, hb, hm']
  · -- the N-create / N-delete scenario
    intro hash data now refs hne hnd
    obtain ⟨r, rest, rfl⟩ : ∃ r rest, refs = r :: rest := by
      cases refs with
      | nil => exact absurd rfl hne
      | cons a l => exact ⟨a, l, rfl⟩
    have h1 : emptyStore.create hash (some data) (data.length : Int)
        (some ⟨hash, 0, 1, [r]⟩) now =
        (.ok ⟨hash, (data.length : Int), 1, [r]⟩,
          ⟨[(hash, ⟨data, now⟩)],
            [(hash, ⟨hash, (data.length : Int), 1, [r]⟩)], [], []⟩,
          data) := by
      simp [Store.create, emptyStore, ainsert]
    have hseq : createSeq hash data now emptyStore
        ((r :: rest).map (fun rr => ⟨hash, 0, 1, [rr]⟩)) =
        ((createSeq hash data now
            ⟨[(hash, ⟨data, now⟩)],
              [(hash, ⟨hash, (data.length : Int), 1, [r]⟩)], [], []⟩
            (rest.map (fun rr => ⟨hash, 0, 1, [rr]⟩))).1,
          .ok ⟨hash, (data.length : Int), 1, [r]⟩ ::
            (createSeq hash data now
              ⟨[(hash, ⟨data, now⟩)],
                [(hash, ⟨hash, (data.length : Int), 1, [r]⟩)], [], []⟩
              (rest.map (fun rr => ⟨hash, 0, 1, [rr]⟩))).2) := by
      simp [createSeq, h1]
    obtain ⟨-, ihb, mf, ihmf, -, -, ihrefs⟩ :=
      createSeq_existing hash data now (rest.map (fun rr => ⟨hash, 0, 1, [rr]⟩))
        ⟨[(hash, ⟨data, now⟩)],
          [(hash, ⟨hash, (data.length : Int), 1, [r]⟩)], [], []⟩
        ⟨hash, (data.length : Int), 1, [r]⟩
        ⟨data, now⟩ (by simp [alookup]) (by simp [Store.getMeta, alookup]) rfl rfl
        (by intro mm hmm; simp only [List.mem_map] at hmm
            obtain ⟨rr, -, hrr⟩ := hmm
            rw [← hrr]
            simp)
    have hmfrefs : mf.references = r :: rest := by
      rw [ihrefs]
      by_cases hrest : rest = []
      · subst hrest; rfl
      · have hmapne : rest.map (fun rr => (⟨hash, 0, 1, [rr]⟩ : ArtifactMeta)) ≠ [] := by
          cases rest with
          | nil => exact absurd rfl hrest
          | cons x y => simp
        show ((rest.map (fun rr => (⟨hash, 0, 1, [rr]⟩ : ArtifactMeta))).map
            (fun m => m.references)).foldl mergeReferences [r] = _
        rw [foldl_merge_eq_dedup _ [r]
          (by cases rest with
              | nil => exact absurd rfl hrest
              | cons x y => simp)]
        have hjoin : ((rest.map (fun rr => (⟨hash, 0, 1, [rr]⟩ : ArtifactMeta))).map
            (fun m => m.references)).flatten = rest := by
          rw [List.map_map]
          exact flatten_map_singleton rest
        rw [hjoin]
        exact dedupRefs_of_nodup (r :: rest) hnd
    obtain ⟨dlen, didx, dlast, dmeta, dblob, dtrash⟩ :=
      deleteSeq_invariant hash (r :: rest)
        ((createSeq hash data now emptyStore
          ((r :: rest).map (fun rr => ⟨hash, 0, 1, [rr]⟩))).1)
        mf ⟨data, now⟩ (by simp) hnd (by rw [hseq]; exact ihmf) hmfrefs
        (by rw [hseq]; exact ihb)
    refine ⟨dlen, ?_, dlast, dmeta, ?_, dtrash⟩
    · intro hlen2
      have hidx : (r :: rest).length - 2 + 1 < (r :: rest).length := by
        simp only [List.length_cons] at hlen2 ⊢
        omega
      refine ⟨_, didx ((r :: rest).length - 2) hidx, ?_⟩
      simp only [List.length_drop]
      simp only [List.length_cons] at hlen2 ⊢
      omega
    · intro off len
      simp only [List.map_cons] at dblob
      simp [Store.read, dblob]

/-- Witness for C3: all four parts applied at concrete stores — a
mismatching delete, a delete leaving one reference, a delete of the last
reference, and a 2-create/2-delete round. -/
theorem C3_delete_semantics_witness :
    Store.getMeta ⟨[("ab", ⟨[1], 0⟩)], [("ab", ⟨"ab", 1, 0, [⟨"n", "r", 1⟩]⟩)], [], []⟩
      "ab" = some ⟨"ab", 1, 0, [⟨"n", "r", 1⟩]⟩ ∧
    (∀ x ∈ (ArtifactMeta.references ⟨"ab", 1, 0, [⟨"n", "r", 1⟩]⟩),
      ¬(x.name = "q" ∧ x.repo = "w")) ∧
    Store.delete ⟨[("ab", ⟨[1], 0⟩)], [("ab", ⟨"ab", 1, 0, [⟨"n", "r", 1⟩]⟩)], [], []⟩
      "ab" ⟨"q", "w", 0⟩ =
      (.error (.referenceNotFound "q" "w" "ab"),
        ⟨[("ab", ⟨[1], 0⟩)], [("ab", ⟨"ab", 1, 0, [⟨"n", "r", 1⟩]⟩)], [], []⟩) ∧
    ((Store.delete ⟨[("ab", ⟨[1], 0⟩)],
        [("ab", ⟨"ab", 1, 0, [⟨"n", "r", 1⟩, ⟨"n2", "r2", 2⟩]⟩)], [], []⟩
        "ab" ⟨"n", "r", 9⟩).1 =
      .ok (some ({ (⟨"ab", 1, 0, [⟨"n", "r", 1⟩, ⟨"n2", "r2", 2⟩]⟩ : ArtifactMeta) with
        references := [⟨"n", "r", 1⟩, ⟨"n2", "r2", 2⟩].filter
          (fun e => ¬(e.name = "n" ∧ e.repo = "r")) })) ∧
      ((Store.delete ⟨[("ab", ⟨[1], 0⟩)],
          [("ab", ⟨"ab", 1, 0, [⟨"n", "r", 1⟩, ⟨"n2", "r2", 2⟩]⟩)], [], []⟩
          "ab" ⟨"n", "r", 9⟩).2).getMeta "ab" =
        some ({ (⟨"ab", 1, 0, [⟨"n", "r", 1⟩, ⟨"n2", "r2", 2⟩]⟩ : ArtifactMeta) with
          references := [⟨"n", "r", 1⟩, ⟨"n2", "r2", 2⟩].filter
            (fun e => ¬(e.name = "n" ∧ e.repo = "r")) })) ∧
    ((Store.delete ⟨[("ab", ⟨[1], 0⟩)], [("ab", ⟨"ab", 1, 0, [⟨"n", "r", 1⟩]⟩)], [], []⟩
        "ab" ⟨"n", "r", 9⟩).1 = .ok none ∧
      ((Store.delete ⟨[("ab", ⟨[1], 0⟩)], [("ab", ⟨"ab", 1, 0, [⟨"n", "r", 1⟩]⟩)], [], []⟩
          "ab" ⟨"n", "r", 9⟩).2).getMeta "ab" = none ∧
      (∀ off len : Int,
        ((Store.delete ⟨[("ab", ⟨[1], 0⟩)], [("ab", ⟨"ab", 1, 0, [⟨"n", "r", 1⟩]⟩)], [], []⟩
          "ab" ⟨"n", "r", 9⟩).2).read "ab" off len = .error (.notFound "ab")) ∧
      alookup "ab" ((Store.delete ⟨[("ab", ⟨[1], 0⟩)],
          [("ab", ⟨"ab", 1, 0, [⟨"n", "r", 1⟩]⟩)], [], []⟩
          "ab" ⟨"n", "r", 9⟩).2).blobs = none ∧
      alookup "ab" ((Store.delete ⟨[("ab", ⟨[1], 0⟩)],
          [("ab", ⟨"ab", 1, 0, [⟨"n", "r", 1⟩]⟩)], [], []⟩
          "ab" ⟨"n", "r", 9⟩).2).trashBlobs = some ⟨[1], 0⟩) ∧
    ((deleteSeq "ab" ((createSeq "ab" [1] 9 emptyStore
        (([⟨"n1", "r1", 1⟩, ⟨"n2", "r2", 2⟩] : List ArtifactReference).map
          (fun rr => ⟨"ab", 0, 1, [rr]⟩))).1)
        [⟨"n1", "r1", 1⟩, ⟨"n2", "r2", 2⟩]).2.length =
      ([⟨"n1", "r1", 1⟩, ⟨"n2", "r2", 2⟩] : List ArtifactReference).length ∧
      (2 ≤ ([⟨"n1", "r1", 1⟩, ⟨"n2", "r2", 2⟩] : List ArtifactReference).length →
        ∃ mprev : ArtifactMeta,
          (deleteSeq "ab" ((createSeq "ab" [1] 9 emptyStore
            (([⟨"n1", "r1", 1⟩, ⟨"n2", "r2", 2⟩] : List ArtifactReference).map
              (fun rr => ⟨"ab", 0, 1, [rr]⟩))).1)
            [⟨"n1", "r1", 1⟩, ⟨"n2", "r2", 2⟩]).2.get?
            (([⟨"n1", "r1", 1⟩, ⟨"n2", "r2", 2⟩] : List ArtifactReference).length - 2) =
            some (.ok (some mprev)) ∧
          mprev.references.length = 1) ∧
      (deleteSeq "ab" ((createSeq "ab" [1] 9 emptyStore
        (([⟨"n1", "r1", 1⟩, ⟨"n2", "r2", 2⟩] : List ArtifactReference).map
          (fun rr => ⟨"ab", 0, 1, [rr]⟩))).1)
        [⟨"n1", "r1", 1⟩, ⟨"n2", "r2", 2⟩]).2.get?
        (([⟨"n1", "r1", 1⟩, ⟨"n2", "r2", 2⟩] : List ArtifactReference).length - 1) =
        some (.ok none) ∧
      ((deleteSeq "ab" ((createSeq "ab" [1] 9 emptyStore
        (([⟨"n1", "r1", 1⟩, ⟨"n2", "r2", 2⟩] : List ArtifactReference).map
          (fun rr => ⟨"ab", 0, 1, [rr]⟩))).1)
        [⟨"n1", "r1", 1⟩, ⟨"n2", "r2", 2⟩]).1).getMeta "ab" = none ∧
      (∀ off len : Int,
        ((deleteSeq "ab" ((createSeq "ab" [1] 9 emptyStore
          (([⟨"n1", "r1", 1⟩, ⟨"n2", "r2", 2⟩] : List ArtifactReference).map
            (fun rr => ⟨"ab", 0, 1, [rr]⟩))).1)
          [⟨"n1", "r1", 1⟩, ⟨"n2", "r2", 2⟩]).1).read "ab" off len =
          .error (.notFound "ab")) ∧
      alookup "ab" ((deleteSeq "ab" ((createSeq "ab" [1] 9 emptyStore
        (([⟨"n1", "r1", 1⟩, ⟨"n2", "r2", 2⟩] : List ArtifactReference).map
          (fun rr => ⟨"ab", 0, 1, [rr]⟩))).1)
        [⟨"n1", "r1", 1⟩, ⟨"n2", "r2", 2⟩]).1).trashBlobs = some ⟨[1], 9⟩) :=
  ⟨rfl, by decide,
    (C3_delete_semantics.1 ⟨[("ab", ⟨[1], 0⟩)],
      [("ab", ⟨"ab", 1, 0, [⟨"n", "r", 1⟩]⟩)], [], []⟩
      "ab" ⟨"q", "w", 0⟩ ⟨"ab", 1, 0, [⟨"n", "r", 1⟩]⟩ rfl (by decide)),
    (C3_delete_semantics.2.1 ⟨[("ab", ⟨[1], 0⟩)],
      [("ab", ⟨"ab", 1, 0, [⟨"n", "r", 1⟩, ⟨"n2", "r2", 2⟩]⟩)], [], []⟩
      "ab" ⟨"n", "r", 9⟩ ⟨"ab", 1, 0, [⟨"n", "r", 1⟩, ⟨"n2", "r2", 2⟩]⟩ rfl
      (by decide) (by decide)),
    (C3_delete_semantics.2.2.1 ⟨[("ab", ⟨[1], 0⟩)],
      [("ab", ⟨"ab", 1, 0, [⟨"n", "r", 1⟩]⟩)], [], []⟩
      "ab" ⟨"n", "r", 9⟩ ⟨"ab", 1, 0, [⟨"n", "r", 1⟩]⟩ ⟨[1], 0⟩ rfl rfl
      (by decide) (by decide)),
    (C3_delete_semantics.2.2.2 "ab" [1] 9 [⟨"n1", "r1", 1⟩, ⟨"n2", "r2", 2⟩]
      (by decide) (by decide))⟩

/-- Counterexample to C3 as frozen: `("a:b", "c")` and `("a", "b:c")` are
distinct `(name, repo)` references, yet after two Creates supplying them
the *first* matching Delete already returns `nil` and trashes the blob —
the `(N−1)`th Delete does not return non-nil meta with one remaining
reference. -/
theorem C3_counterexample_collapsed_references :
    (deleteSeq "ab" ((createSeq "ab" [1] 9 emptyStore
        [⟨"ab", 0, 1, [⟨"a:b", "c", 1⟩]⟩, ⟨"ab", 0, 1, [⟨"a", "b:c", 2⟩]⟩]).1)
        [⟨"a:b", "c", 1⟩, ⟨"a", "b:c", 2⟩]).2.get? 0 = some (.ok none) ∧
    ¬((("a:b" : String), ("c" : String)) = (("a" : String), ("b:c" : String))) :=
  ⟨rfl, by decide⟩

end Brm
